import Mathlib

/-!
# equirectangular-to-cubemap (`e2c.go`): a shallow embedding

`float64` values are embedded as elements of an ordered field `K` with a floor
function (instantiated at `ℚ` to run the code, at `ℝ` where `math.Atan2`,
`math.Hypot` and `math.Pi` are needed); rounding error, NaN and infinities are
not modelled.  Go's `int` is the 64-bit type: a value of it is an `Int`, and the
conversion from `float64` (`toInt`) and the addition (`addInt`) leave the range
`[-2^63, 2^63)` the way the machine does.
-/

namespace E2C

/-! ## Data model -/

/-- The Go struct `vec3` (three `float64` components). -/
@[ext] structure vec3 (K : Type) where
  x : K
  y : K
  z : K
  deriving DecidableEq, Repr

/-- The 8-bit type `color.RGBA` of the Go standard library. -/
@[ext] structure RGBA where
  R : Nat
  G : Nat
  B : Nat
  A : Nat
  deriving DecidableEq, Repr

/-- What `color.Color.RGBA()` returns: four channels, each in `[0, 0xffff]`. -/
@[ext] structure Color where
  r : Nat
  g : Nat
  b : Nat
  a : Nat
  deriving DecidableEq, Repr

/-- The method `color.RGBA.RGBA()`: `r = uint32(c.R); r |= r << 8`, that is
`c.R * 257` for an 8-bit channel, and likewise for the other channels. -/
def RGBA.RGBA (c : RGBA) : Color :=
  { r := c.R * 257, g := c.G * 257, b := c.B * 257, a := c.A * 257 }

/-- The source grid, an `image.Image` as `image.Decode` returns it for the registered
formats: bounds `(0,0)-(Dx,Dy)` with each side below `2^31` (png stores the sides as
signed 32-bit values, jpeg as 16-bit values), and the colour `At(x, y).RGBA()` of each
point. -/
structure Image where
  Dx : Nat
  Dy : Nat
  At : Int → Int → Color
  Dx_lt : Dx < 2 ^ 31 := by decide
  Dy_lt : Dy < 2 ^ 31 := by decide

/-! ## Vector primitive -/

/-- Go `mul`. -/
def mul {K : Type} [LinearOrderedField K] (v1 v2 : vec3 K) : vec3 K :=
  ⟨v1.x * v2.x, v1.y * v2.y, v1.z * v2.z⟩

/-- Go `add`. -/
def add {K : Type} [LinearOrderedField K] (v1 v2 : vec3 K) : vec3 K :=
  ⟨v1.x + v2.x, v1.y + v2.y, v1.z + v2.z⟩

/-- Go `addf`. -/
def addf {K : Type} [LinearOrderedField K] (v : vec3 K) (f : K) : vec3 K :=
  ⟨v.x + f, v.y + f, v.z + f⟩

/-- Go `clamp`: `math.Min(math.Max(x, min), max)`. -/
def clamp {K : Type} [LinearOrderedField K] (x lo hi : K) : K :=
  min (max x lo) hi

/-- Go's conversion `int(f)` of a `float64` to the 64-bit `int`: the fraction is
discarded (truncation towards zero); a value outside the range of `int` converts to
`-2^63`, the result of the amd64 conversion instruction (the language leaves that case to
the implementation). -/
def toInt {K : Type} [LinearOrderedField K] [FloorRing K] (f : K) : Int :=
  if -(2 ^ 63 : K) ≤ f ∧ f < (2 ^ 63 : K) then (if 0 ≤ f then ⌊f⌋ else ⌈f⌉) else -(2 ^ 63)

/-- Go's `a + b` on the 64-bit `int`: the sum wraps around modulo `2^64`. -/
def addInt (a b : Int) : Int :=
  (a + b + 2 ^ 63) % 2 ^ 64 - 2 ^ 63

/-- Go's conversion `uint8(f)` of a `float64`: truncation towards zero; the
result is defined by the language only for `f` in `(-1, 256)`. -/
def toUint8 {K : Type} [LinearOrderedField K] [FloorRing K] (f : K) : Nat :=
  ⌊f⌋₊ % 256

/-- Go `vec3.toColor`. -/
def vec3.toColor {K : Type} [LinearOrderedField K] [FloorRing K] (v : vec3 K) : RGBA :=
  { R := toUint8 v.x, G := toUint8 v.y, B := toUint8 v.z, A := 255 }

/-! ## Bilinear sampler -/

/-- Go `colorToVec3`. -/
def colorToVec3 {K : Type} [LinearOrderedField K] (c : Color) : vec3 K :=
  ⟨(c.r : K) / 255, (c.g : K) / 255, (c.b : K) / 255⟩

/-- The local `xf` (and `yf`) of `textureLookup`: `u * float64(img.Bounds().Dy())`. -/
def scaled {K : Type} [LinearOrderedField K] (img : Image) (u : K) : K :=
  u * (img.Dy : K)

/-- The local `x` (and `y`) of `textureLookup`: `int(math.Floor(xf))`. -/
def base {K : Type} [LinearOrderedField K] [FloorRing K] (img : Image) (u : K) : Int :=
  toInt ((⌊scaled img u⌋ : Int) : K)

/-- The local `diffx` (and `diffy`) of `textureLookup`: `xf - float64(x)`. -/
def diff {K : Type} [LinearOrderedField K] [FloorRing K] (img : Image) (u : K) : K :=
  scaled img u - ((base img u : Int) : K)

/-- The wrapped column `x % img.Bounds().Dx()` (Go's `%` truncates towards zero). -/
def wrapX (img : Image) (x : Int) : Int :=
  Int.tmod x (img.Dx : Int)

/-- The clamped column `int(clamp(float64(x2), 0, float64(img.Bounds().Dx()-1)))`. -/
def clampX (K : Type) [LinearOrderedField K] [FloorRing K] (img : Image) (x2 : Int) : Int :=
  toInt (clamp (x2 : K) 0 ((((img.Dx : Int) - 1 : Int)) : K))

/-- The clamped row `int(clamp(float64(y), 0, float64(img.Bounds().Dy()-1)))`. -/
def clampY (K : Type) [LinearOrderedField K] [FloorRing K] (img : Image) (y : Int) : Int :=
  toInt (clamp (y : K) 0 ((((img.Dy : Int) - 1 : Int)) : K))

/-- The point of the source grid that `textureLookup` fetches as `A`. -/
def coordA {K : Type} [LinearOrderedField K] [FloorRing K] (img : Image) (u v : K) : Int × Int :=
  (wrapX img (base img u), clampY K img (base img v))

/-- The point of the source grid that `textureLookup` fetches as `B`. -/
def coordB {K : Type} [LinearOrderedField K] [FloorRing K] (img : Image) (u v : K) : Int × Int :=
  (clampX K img (addInt (base img u) 1), clampY K img (base img v))

/-- The point of the source grid that `textureLookup` fetches as `C`. -/
def coordC {K : Type} [LinearOrderedField K] [FloorRing K] (img : Image) (u v : K) : Int × Int :=
  (wrapX img (base img u), clampY K img (addInt (base img v) 1))

/-- The point of the source grid that `textureLookup` fetches as `D`. -/
def coordD {K : Type} [LinearOrderedField K] [FloorRing K] (img : Image) (u v : K) : Int × Int :=
  (clampX K img (addInt (base img u) 1), clampY K img (addInt (base img v) 1))

/-- Go `textureLookup`. -/
def textureLookup {K : Type} [LinearOrderedField K] [FloorRing K]
    (img : Image) (u v : K) : vec3 K :=
  let diffx := diff img u
  let diffy := diff img v
  let A : vec3 K := colorToVec3 (img.At (coordA img u v).1 (coordA img u v).2)
  let B : vec3 K := colorToVec3 (img.At (coordB img u v).1 (coordB img u v).2)
  let C : vec3 K := colorToVec3 (img.At (coordC img u v).1 (coordC img u v).2)
  let D : vec3 K := colorToVec3 (img.At (coordD img u v).1 (coordD img u v).2)
  let r := A.x * (1 - diffx) * (1 - diffy) + B.x * diffx * (1 - diffy)
    + C.x * (1 - diffx) * diffy + D.x * diffx * diffy
  let g := A.y * (1 - diffx) * (1 - diffy) + B.y * diffx * (1 - diffy)
    + C.y * (1 - diffx) * diffy + D.y * diffx * diffy
  let b := A.z * (1 - diffx) * (1 - diffy) + B.z * diffx * (1 - diffy)
    + C.z * (1 - diffx) * diffy + D.z * diffx * diffy
  ⟨clamp r 0 255, clamp g 0 255, clamp b 0 255⟩

/-! ## Face-direction mapper -/

/-- Go `outImgToXYZ`. -/
def outImgToXYZ {K : Type} [LinearOrderedField K] (i j faceIdx faceSize : Int) : vec3 K :=
  let a : K := 2 * (i : K) / (faceSize : K)
  let b : K := 2 * (j : K) / (faceSize : K)
  if faceIdx = 0 then ⟨1 - a, 1, 1 - b⟩
  else if faceIdx = 1 then ⟨a - 1, -1, 1 - b⟩
  else if faceIdx = 2 then ⟨b - 1, a - 1, 1⟩
  else if faceIdx = 3 then ⟨1 - b, a - 1, -1⟩
  else if faceIdx = 4 then ⟨1, a - 1, 1 - b⟩
  else if faceIdx = 5 then ⟨-1, 1 - a, 1 - b⟩
  else ⟨0, 0, 0⟩

/-! ## Spherical UV mapper (over the reals) -/

/-- The function `math.Atan2(y, x)`: the angle of the point `(x, y)`, in
`(-π, π]`, with `Atan2(0, 0) = 0`. -/
noncomputable def Atan2 (y x : ℝ) : ℝ :=
  if 0 < x then Real.arctan (y / x)
  else if x < 0 then
    (if 0 ≤ y then Real.arctan (y / x) + Real.pi else Real.arctan (y / x) - Real.pi)
  else if 0 < y then Real.pi / 2
  else if y < 0 then -(Real.pi / 2)
  else 0

/-- The function `math.Hypot(p, q)`. -/
noncomputable def Hypot (p q : ℝ) : ℝ :=
  Real.sqrt (p * p + q * q)

/-- Go `sampleSphere`. -/
noncomputable def sampleSphere (p : vec3 ℝ) : vec3 ℝ :=
  let theta := Atan2 p.y p.x
  let r := Hypot p.x p.y
  let phi := Atan2 p.z r
  let u := (theta + Real.pi) / Real.pi
  let v := (Real.pi / 2 - phi) / Real.pi
  ⟨u, v, 0⟩

/-! ## The per-pixel pipeline and the face-render driver -/

/-- The body of the pixel loop of Go `main`: the colour that is `Set` at `(x, y)`
while face `faceIdx` is rendered at side `size`. -/
noncomputable def pixelColor (img : Image) (x y faceIdx size : Int) : RGBA :=
  let p : vec3 ℝ := outImgToXYZ x y faceIdx size
  let uv := sampleSphere p
  (textureLookup img uv.x uv.y).toColor

/-- The output grid, an `*image.RGBA`: its rectangle `Min`, `Max` and its pixels. -/
structure Drawable where
  minX : Int
  minY : Int
  maxX : Int
  maxY : Int
  pix : Int → Int → RGBA

/-- The call `image.NewRGBA(image.Rect(x0, y0, x1, y1))`: `image.Rect` swaps the
coordinates where needed so that `Min ≤ Max`, and every pixel starts as zero. -/
def NewRGBA (x0 y0 x1 y1 : Int) : Drawable :=
  { minX := min x0 x1
    minY := min y0 y1
    maxX := max x0 x1
    maxY := max y0 y1
    pix := fun _ _ => ⟨0, 0, 0, 0⟩ }

/-- The method `(*image.RGBA).Set`: a point outside the rectangle is ignored. -/
def Drawable.Set (d : Drawable) (x y : Int) (c : RGBA) : Drawable :=
  if d.minX ≤ x ∧ x < d.maxX ∧ d.minY ≤ y ∧ y < d.maxY then
    { d with pix := fun a b => if a = x ∧ b = y then c else d.pix a b }
  else d

/-- The two pixel loops of Go `main` for one face, `x` outermost. -/
noncomputable def renderFace (img : Image) (faceIdx size : Int) (d : Drawable) : Drawable :=
  (List.range size.toNat).foldl
    (fun dx x => (List.range size.toNat).foldl
      (fun dy y => dy.Set (x : Int) (y : Int) (pixelColor img x y faceIdx size)) dx) d

/-- The digits of a decimal literal, most significant first, added to `acc`. -/
def parseDigits : List Char → Nat → Option Nat
  | [], acc => some acc
  | c :: cs, acc =>
    if 48 ≤ c.toNat ∧ c.toNat ≤ 57 then parseDigits cs (acc * 10 + (c.toNat - 48)) else none

/-- The function `strconv.Atoi` for a 64-bit `int`: an optional sign, then one or more
decimal digits; anything else, or a value outside the range of `int`, is an error. -/
def Atoi (s : String) : Except String Int :=
  let syntaxErr : Except String Int :=
    .error ("strconv.Atoi: parsing " ++ s ++ ": invalid syntax")
  let rangeErr : Except String Int :=
    .error ("strconv.Atoi: parsing " ++ s ++ ": value out of range")
  let neg : Bool := s.toList.head? = some (Char.ofNat 45)
  let digits : List Char :=
    if s.toList.head? = some (Char.ofNat 45) ∨ s.toList.head? = some (Char.ofNat 43)
    then s.toList.tail else s.toList
  if digits = [] then syntaxErr
  else match parseDigits digits 0 with
    | none => syntaxErr
    | some n =>
      if neg then (if n ≤ 2 ^ 63 then .ok (-(n : Int)) else rangeErr)
      else (if n < 2 ^ 63 then .ok (n : Int) else rangeErr)

/-- What a run of `main` does to the outside: a line printed, or one invocation of
the writer `saveImage(img, foldername, filename)`. -/
inductive Event where
  | print (msg : String)
  | save (img : Drawable) (foldername filename : String)

/-- The collaborators of `main` that depend on the file system: `loadImage`, and the
outcome of `saveImage` (`none` for a `nil` error). -/
structure World where
  loadImage : String → Except String Image
  saveImage : Drawable → String → String → Option String

/-- The file name `fmt.Sprintf("face%d.png", faceIdx)`. -/
def faceName (faceIdx : Nat) : String :=
  "face" ++ toString faceIdx ++ ".png"

/-- The face loop of Go `main`, from `faceIdx` on with `n` faces left: announce the
face, render it into the one shared `drawable`, hand it to `saveImage`, and stop at
the first error. -/
noncomputable def faceLoop (w : World) (img : Image) (size : Int) (folder : String) :
    Nat → Nat → Drawable → List Event
  | 0, _, _ => []
  | n + 1, faceIdx, d =>
    let d1 := renderFace img faceIdx size d
    Event.print ("Converting face " ++ toString faceIdx ++ "\n") ::
      Event.save d1 folder (faceName faceIdx) ::
        (match w.saveImage d1 folder (faceName faceIdx) with
          | some err => [Event.print (err ++ "\n")]
          | none => faceLoop w img size folder n (faceIdx + 1) d1)

/-- Go `main`, as the list of its effects in order, for the arguments `os.Args`. -/
noncomputable def main (w : World) (args : List String) : List Event :=
  match args with
  | _ :: sizeArg :: inputImage :: folder :: _ =>
    match w.loadImage inputImage with
    | .error err => [Event.print (err ++ "\n")]
    | .ok img =>
      match Atoi sizeArg with
      | .error err => [Event.print (err ++ "\n")]
      | .ok size => faceLoop w img size folder 6 0 (NewRGBA 0 0 size size)
  | _ =>
    [Event.print ("Usage: " ++ args.headD "" ++ " <output_size> <input_image> <output_folder>\n"),
     Event.print ("Example: " ++ args.headD "" ++ " 512 skybox.png output\n")]

/-- The writer invocations of a run, in order: the file name of each. -/
def savedNames : List Event → List String
  | [] => []
  | Event.print _ :: es => savedNames es
  | Event.save _ _ name :: es => name :: savedNames es

/-- The drawable handed to the writer for face `start + j`, when the face loop is
entered at face `start` with drawable `d`. -/
noncomputable def drawableSeq (img : Image) (size : Int) : Drawable → Nat → Nat → Drawable
  | d, start, 0 => renderFace img start size d
  | d, start, j + 1 => drawableSeq img size (renderFace img start size d) (start + 1) j

/-! ## Concrete inputs -/

/-- A `W × H` source grid whose every pixel is the 8-bit colour `c`; outside
its bounds `At` yields the zero colour, as the image types of Go do. -/
def uniformGrid (W H : Nat) (c : RGBA) (hW : W < 2 ^ 31 := by decide)
    (hH : H < 2 ^ 31 := by decide) : Image :=
  { Dx := W
    Dy := H
    At := fun x y =>
      if 0 ≤ x ∧ x < (W : Int) ∧ 0 ≤ y ∧ y < (H : Int) then c.RGBA else ⟨0, 0, 0, 0⟩
    Dx_lt := hW
    Dy_lt := hH }

/-- A `4 × 2` source grid whose leftmost and rightmost columns are opaque black and
whose two middle columns are opaque white (as `RGBA()` reports them). -/
def seamGrid : Image :=
  { Dx := 4
    Dy := 2
    At := fun x y =>
      if 0 ≤ x ∧ x < 4 ∧ 0 ≤ y ∧ y < 2 then
        (if x = 1 ∨ x = 2 then (⟨255, 255, 255, 255⟩ : RGBA).RGBA
          else (⟨0, 0, 0, 255⟩ : RGBA).RGBA)
      else ⟨0, 0, 0, 0⟩ }

/-- A world for running `main`: every path loads as `seamGrid`, and `saveImage` fails
exactly on an empty image, as `png.Encode` does. -/
def pngWorld : World :=
  { loadImage := fun _ => .ok seamGrid
    saveImage := fun d _ _ =>
      if d.maxX - d.minX ≤ 0 ∨ d.maxY - d.minY ≤ 0 then some "png: invalid format: invalid image size"
      else none }

/-- A world for running `main` in which the write of `face2.png` fails and every other
write succeeds. -/
def failWorld : World :=
  { loadImage := fun _ => .ok seamGrid
    saveImage := fun _ _ name => if name = "face2.png" then some "write error" else none }

/-- The writer invocations of a run, in order: the grid handed over by each. -/
def savedImages : List Event → List Drawable
  | [] => []
  | Event.print _ :: es => savedImages es
  | Event.save img _ _ :: es => img :: savedImages es

/-- A world for running `main` in which every write succeeds. -/
def okWorld : World :=
  { loadImage := fun _ => .ok seamGrid
    saveImage := fun _ _ _ => none }

/-! ## Basic facts about the conversions -/

theorem toInt_intCast {K : Type} [LinearOrderedField K] [FloorRing K]
    (n : Int) (h1 : -(2 ^ 63) ≤ n) (h2 : n < 2 ^ 63) : toInt ((n : Int) : K) = n := by
  have c1 : -(2 ^ 63 : K) ≤ (n : K) := by exact_mod_cast h1
  have c2 : (n : K) < (2 ^ 63 : K) := by exact_mod_cast h2
  unfold toInt
  rw [if_pos ⟨c1, c2⟩]
  split <;> simp

/-- A value outside the range of `int` converts to `-2^63`. -/
theorem toInt_of_ge {K : Type} [LinearOrderedField K] [FloorRing K]
    (f : K) (h : (2 ^ 63 : K) ≤ f) : toInt f = -(2 ^ 63) := by
  unfold toInt
  rw [if_neg (fun hc => absurd hc.2 (not_lt.mpr h))]

theorem addInt_eq (a b : Int) (h1 : -(2 ^ 63) ≤ a + b) (h2 : a + b < 2 ^ 63) :
    addInt a b = a + b := by
  unfold addInt
  rw [Int.emod_eq_of_lt (by omega) (by omega)]
  omega

theorem floor_mem_of_mem {K : Type} [LinearOrderedField K] [FloorRing K] (x : K)
    (h1 : -(2 ^ 63 : K) ≤ x) (h2 : x < (2 ^ 63 : K)) :
    -(2 ^ 63) ≤ ⌊x⌋ ∧ ⌊x⌋ < 2 ^ 63 := by
  constructor
  · exact Int.le_floor.mpr (le_trans (le_of_eq (by norm_num)) h1)
  · exact Int.floor_lt.mpr (lt_of_lt_of_le h2 (le_of_eq (by norm_num)))

/-- Inside the range of `int` the local `x` of `textureLookup` is the floor of `xf`. -/
theorem base_eq_floor {K : Type} [LinearOrderedField K] [FloorRing K]
    (img : Image) (u : K) (h1 : -(2 ^ 63 : K) ≤ u * (img.Dy : K))
    (h2 : u * (img.Dy : K) < (2 ^ 63 : K)) : base img u = ⌊u * (img.Dy : K)⌋ := by
  have hf := floor_mem_of_mem _ h1 h2
  simp only [base, scaled]
  exact toInt_intCast _ hf.1 hf.2

/-- At and beyond `2^63` the local `x` of `textureLookup` is `-2^63`. -/
theorem base_of_overflow {K : Type} [LinearOrderedField K] [FloorRing K]
    (img : Image) (u : K) (h : (2 ^ 63 : K) ≤ u * (img.Dy : K)) : base img u = -(2 ^ 63) := by
  simp only [base, scaled]
  apply toInt_of_ge
  have hfl : (2 ^ 63 : Int) ≤ ⌊u * (img.Dy : K)⌋ :=
    Int.le_floor.mpr (le_trans (le_of_eq (by norm_num)) h)
  have hc : ((2 ^ 63 : Int) : K) ≤ ((⌊u * (img.Dy : K)⌋ : Int) : K) := Int.cast_le.mpr hfl
  exact le_trans (le_of_eq (by norm_num)) hc

theorem Dx_lt_cast (img : Image) : (img.Dx : Int) < 2 ^ 31 := by
  exact_mod_cast img.Dx_lt

theorem Dy_lt_cast (img : Image) : (img.Dy : Int) < 2 ^ 31 := by
  exact_mod_cast img.Dy_lt

theorem clamp_intCast {K : Type} [LinearOrderedField K] (n lo hi : Int) :
    clamp (n : K) (lo : K) (hi : K) = ((min (max n lo) hi : Int) : K) := by
  simp [clamp]

theorem clampX_eq {K : Type} [LinearOrderedField K] [FloorRing K] (img : Image) (x2 : Int) :
    clampX K img x2 = min (max x2 0) ((img.Dx : Int) - 1) := by
  have h := clamp_intCast (K := K) x2 0 ((img.Dx : Int) - 1)
  have hlt := Dx_lt_cast img
  have h0 : (0 : Int) ≤ (img.Dx : Int) := Int.natCast_nonneg _
  have hlo : -(2 ^ 63) ≤ min (max x2 0) ((img.Dx : Int) - 1) :=
    le_min (le_trans (by norm_num) (le_max_right x2 0)) (by omega)
  have hhi : min (max x2 0) ((img.Dx : Int) - 1) < 2 ^ 63 :=
    lt_of_le_of_lt (min_le_right _ _) (by omega)
  unfold clampX
  rw [show (0 : K) = ((0 : Int) : K) by simp, h, toInt_intCast _ hlo hhi]

theorem clampY_eq {K : Type} [LinearOrderedField K] [FloorRing K] (img : Image) (y : Int) :
    clampY K img y = min (max y 0) ((img.Dy : Int) - 1) := by
  have h := clamp_intCast (K := K) y 0 ((img.Dy : Int) - 1)
  have hlt := Dy_lt_cast img
  have h0 : (0 : Int) ≤ (img.Dy : Int) := Int.natCast_nonneg _
  have hlo : -(2 ^ 63) ≤ min (max y 0) ((img.Dy : Int) - 1) :=
    le_min (le_trans (by norm_num) (le_max_right y 0)) (by omega)
  have hhi : min (max y 0) ((img.Dy : Int) - 1) < 2 ^ 63 :=
    lt_of_le_of_lt (min_le_right _ _) (by omega)
  unfold clampY
  rw [show (0 : K) = ((0 : Int) : K) by simp, h, toInt_intCast _ hlo hhi]

theorem clampX_bounds {K : Type} [LinearOrderedField K] [FloorRing K]
    (img : Image) (hW : 1 ≤ img.Dx) (x2 : Int) :
    0 ≤ clampX K img x2 ∧ clampX K img x2 < (img.Dx : Int) := by
  rw [clampX_eq]
  have : (1 : Int) ≤ (img.Dx : Int) := by exact_mod_cast hW
  constructor
  · exact le_min (le_max_right _ _) (by omega)
  · exact lt_of_le_of_lt (min_le_right _ _) (by omega)

theorem clampY_bounds {K : Type} [LinearOrderedField K] [FloorRing K]
    (img : Image) (hH : 1 ≤ img.Dy) (y : Int) :
    0 ≤ clampY K img y ∧ clampY K img y < (img.Dy : Int) := by
  rw [clampY_eq]
  have : (1 : Int) ≤ (img.Dy : Int) := by exact_mod_cast hH
  constructor
  · exact le_min (le_max_right _ _) (by omega)
  · exact lt_of_le_of_lt (min_le_right _ _) (by omega)

theorem wrapX_bounds (img : Image) (hW : 1 ≤ img.Dx) (x : Int) (hx : 0 ≤ x) :
    0 ≤ wrapX img x ∧ wrapX img x < (img.Dx : Int) := by
  have : (0 : Int) < (img.Dx : Int) := by exact_mod_cast hW
  exact ⟨Int.tmod_nonneg _ hx, Int.tmod_lt_of_pos _ this⟩

theorem base_nonneg {K : Type} [LinearOrderedField K] [FloorRing K]
    (img : Image) (u : K) (hu : 0 ≤ u) (h2 : u * (img.Dy : K) < (2 ^ 63 : K)) :
    0 ≤ base img u := by
  have h0 : (0 : K) ≤ u * (img.Dy : K) := mul_nonneg hu (Nat.cast_nonneg _)
  rw [base_eq_floor img u (le_trans (by norm_num) h0) h2]
  exact Int.floor_nonneg.mpr h0

/-- For `u ≤ 2`, as `sampleSphere` yields it, `xf = u * H` stays far below `2^63`. -/
theorem scaled_lt_of_le_two {K : Type} [LinearOrderedField K]
    (img : Image) (u : K) (hu : u ≤ 2) : u * (img.Dy : K) < (2 ^ 63 : K) := by
  have hD : (img.Dy : K) < 2 ^ 31 := by exact_mod_cast img.Dy_lt
  have hD0 : (0 : K) ≤ (img.Dy : K) := Nat.cast_nonneg _
  have : u * (img.Dy : K) ≤ 2 * (img.Dy : K) := mul_le_mul_of_nonneg_right hu hD0
  have h2 : (2 : K) * 2 ^ 31 < 2 ^ 63 := by norm_num
  linarith

theorem clamp_eq_self {K : Type} [LinearOrderedField K]
    (x lo hi : K) (h1 : lo ≤ x) (h2 : x ≤ hi) : clamp x lo hi = x := by
  simp [clamp, h1, h2]

/-- When the four fetched pixels hold one colour, the bilinear blend is that colour
(clamped). -/
theorem textureLookup_of_four_eq {K : Type} [LinearOrderedField K] [FloorRing K]
    (img : Image) (u v : K) (c : Color)
    (hA : img.At (coordA img u v).1 (coordA img u v).2 = c)
    (hB : img.At (coordB img u v).1 (coordB img u v).2 = c)
    (hC : img.At (coordC img u v).1 (coordC img u v).2 = c)
    (hD : img.At (coordD img u v).1 (coordD img u v).2 = c) :
    textureLookup img u v =
      ⟨clamp ((c.r : K) / 255) 0 255, clamp ((c.g : K) / 255) 0 255,
        clamp ((c.b : K) / 255) 0 255⟩ := by
  unfold textureLookup
  simp only [hA, hB, hC, hD, colorToVec3]
  congr 1 <;> · congr 1; ring

theorem Atan2_gt (y x : ℝ) : -Real.pi < Atan2 y x := by
  have hpi := Real.pi_pos
  have h1 := Real.neg_pi_div_two_lt_arctan (y / x)
  unfold Atan2
  split_ifs with hx hx2 hy hy2 hy3
  · linarith
  · linarith
  · have : 0 < y / x := div_pos_of_neg_of_neg (not_le.mp hy) hx2
    have := Real.arctan_strictMono this
    rw [Real.arctan_zero] at this
    linarith
  · linarith
  · linarith
  · linarith

theorem Atan2_le (y x : ℝ) : Atan2 y x ≤ Real.pi := by
  have hpi := Real.pi_pos
  have h1 := Real.arctan_lt_pi_div_two (y / x)
  unfold Atan2
  split_ifs with hx hx2 hy hy2 hy3
  · linarith
  · have : y / x ≤ 0 := div_nonpos_of_nonneg_of_nonpos hy hx2.le
    have := Real.arctan_strictMono.monotone this
    rw [Real.arctan_zero] at this
    linarith
  · linarith
  · linarith
  · linarith
  · linarith

theorem sampleSphere_x_pos (p : vec3 ℝ) : 0 < (sampleSphere p).x := by
  have := Atan2_gt p.y p.x
  simp only [sampleSphere]
  exact div_pos (by linarith) Real.pi_pos

theorem sampleSphere_x_le (p : vec3 ℝ) : (sampleSphere p).x ≤ 2 := by
  have := Atan2_le p.y p.x
  simp only [sampleSphere]
  rw [div_le_iff₀ Real.pi_pos]
  linarith

/-- On a grid whose in-bounds pixels all hold colour `c`, every lookup at `0 ≤ u ≤ 2`
returns `c` scaled by `1/255` and clamped. -/
theorem textureLookup_uniform {K : Type} [LinearOrderedField K] [FloorRing K]
    (img : Image) (hW : 1 ≤ img.Dx) (hH : 1 ≤ img.Dy) (c : Color)
    (hunif : ∀ x y : Int, 0 ≤ x → x < img.Dx → 0 ≤ y → y < img.Dy → img.At x y = c)
    (u v : K) (hu : 0 ≤ u) (hu2 : u ≤ 2) :
    textureLookup img u v =
      ⟨clamp ((c.r : K) / 255) 0 255, clamp ((c.g : K) / 255) 0 255,
        clamp ((c.b : K) / 255) 0 255⟩ := by
  have hx := wrapX_bounds img hW (base img u)
    (base_nonneg img u hu (scaled_lt_of_le_two img u hu2))
  have hx2 := clampX_bounds (K := K) img hW (addInt (base img u) 1)
  have hy := clampY_bounds (K := K) img hH (base img v)
  have hy2 := clampY_bounds (K := K) img hH (addInt (base img v) 1)
  apply textureLookup_of_four_eq
  · exact hunif _ _ hx.1 hx.2 hy.1 hy.2
  · exact hunif _ _ hx2.1 hx2.2 hy.1 hy.2
  · exact hunif _ _ hx.1 hx.2 hy2.1 hy2.2
  · exact hunif _ _ hx2.1 hx2.2 hy2.1 hy2.2

theorem toUint8_of_mem {K : Type} [LinearOrderedField K] [FloorRing K] (f : K) (n : Nat)
    (hn : n < 256) (h1 : (n : K) ≤ f) (h2 : f < (n : K) + 1) : toUint8 f = n := by
  have h0 : (0 : K) ≤ f := le_trans (Nat.cast_nonneg n) h1
  unfold toUint8
  rw [(Nat.floor_eq_iff h0).mpr ⟨h1, h2⟩]
  exact Nat.mod_eq_of_lt hn

/-- The uniform-input scenario on the code: every pixel of every face rendered from a
grid that holds the opaque colour `(128,64,32)` everywhere is `(129,64,32,255)`. -/
theorem pixelColor_uniform (img : Image) (hW : 1 ≤ img.Dx) (hH : 1 ≤ img.Dy)
    (hunif : ∀ x y : Int, 0 ≤ x → x < img.Dx → 0 ≤ y → y < img.Dy →
      img.At x y = (⟨128, 64, 32, 255⟩ : RGBA).RGBA)
    (x y faceIdx size : Int) :
    pixelColor img x y faceIdx size = ⟨129, 64, 32, 255⟩ := by
  unfold pixelColor
  simp only []
  rw [textureLookup_uniform img hW hH _ hunif _ _ (sampleSphere_x_pos _).le
    (sampleSphere_x_le _)]
  simp only [vec3.toColor, RGBA.RGBA]
  rw [clamp_eq_self _ _ _ (by norm_num) (by norm_num),
    clamp_eq_self _ _ _ (by norm_num) (by norm_num),
    clamp_eq_self _ _ _ (by norm_num) (by norm_num)]
  rw [toUint8_of_mem _ 129 (by norm_num) (by norm_num) (by norm_num),
    toUint8_of_mem _ 64 (by norm_num) (by norm_num) (by norm_num),
    toUint8_of_mem _ 32 (by norm_num) (by norm_num) (by norm_num)]

/-- C1 on the code: from the uniform `2 × 1` source grid of colour `(128,64,32,255)`, the
pixel `(0,0)` of face 0 at `faceSize = 1` is written as `(129,64,32,255)`, not as
`(128,64,32,255)`: `colorToVec3` divides the 16-bit channel `128 * 257` by `255`. -/
theorem C1_uniform_pixel_is_129 :
    pixelColor (uniformGrid 2 1 ⟨128, 64, 32, 255⟩) 0 0 0 1 = ⟨129, 64, 32, 255⟩ ∧
    pixelColor (uniformGrid 2 1 ⟨128, 64, 32, 255⟩) 0 0 0 1 ≠ ⟨128, 64, 32, 255⟩ := by
  have h : pixelColor (uniformGrid 2 1 ⟨128, 64, 32, 255⟩) 0 0 0 1 = ⟨129, 64, 32, 255⟩ := by
    apply pixelColor_uniform
    · simp [uniformGrid]
    · simp [uniformGrid]
    · intro x y h1 h2 h3 h4
      simp only [uniformGrid] at h2 h4 ⊢
      rw [if_pos ⟨h1, h2, h3, h4⟩]
  refine ⟨h, ?_⟩
  rw [h]
  decide

/-! ## C2, C8: the face-direction mapper -/

/-- C2, as stated, fails for odd face sizes: at `faceSize = 3` the middle pixel is
`i = j = 3/2 = 1`, and face 0 maps it to `(1/3, 1, 1/3)`, not to the axis `(0, 1, 0)`. -/
theorem C2_odd_faceSize_counterexample :
    (outImgToXYZ ((3 : Int) / 2) ((3 : Int) / 2) 0 3 : vec3 ℝ) = ⟨1 / 3, 1, 1 / 3⟩ ∧
    (outImgToXYZ ((3 : Int) / 2) ((3 : Int) / 2) 0 3 : vec3 ℝ) ≠ ⟨0, 1, 0⟩ := by
  have h : (outImgToXYZ ((3 : Int) / 2) ((3 : Int) / 2) 0 3 : vec3 ℝ) = ⟨1 / 3, 1, 1 / 3⟩ := by
    rw [show (3 : Int) / 2 = 1 by decide]
    simp only [outImgToXYZ, if_true, vec3.mk.injEq]
    norm_num
  refine ⟨h, ?_⟩
  rw [h]
  intro hc
  have := congrArg vec3.x hc
  norm_num at this

/-- For an even `faceSize > 0` the middle pixel of each face has the direction of the
face's axis. -/
theorem face_centre_of_even {K : Type} [LinearOrderedField K]
    (faceSize : Int) (hpos : 0 < faceSize) (heven : faceSize % 2 = 0) :
    (outImgToXYZ (faceSize / 2) (faceSize / 2) 0 faceSize : vec3 K) = ⟨0, 1, 0⟩ ∧
    (outImgToXYZ (faceSize / 2) (faceSize / 2) 1 faceSize : vec3 K) = ⟨0, -1, 0⟩ ∧
    (outImgToXYZ (faceSize / 2) (faceSize / 2) 2 faceSize : vec3 K) = ⟨0, 0, 1⟩ ∧
    (outImgToXYZ (faceSize / 2) (faceSize / 2) 3 faceSize : vec3 K) = ⟨0, 0, -1⟩ ∧
    (outImgToXYZ (faceSize / 2) (faceSize / 2) 4 faceSize : vec3 K) = ⟨1, 0, 0⟩ ∧
    (outImgToXYZ (faceSize / 2) (faceSize / 2) 5 faceSize : vec3 K) = ⟨-1, 0, 0⟩ := by
  have h2 : 2 * (faceSize / 2) = faceSize := by omega
  have hne : (faceSize : K) ≠ 0 := by exact_mod_cast hpos.ne'
  have ha : 2 * ((faceSize / 2 : Int) : K) / (faceSize : K) = 1 := by
    have : (2 : K) * ((faceSize / 2 : Int) : K) = (faceSize : K) := by exact_mod_cast h2
    rw [this, div_self hne]
  simp [outImgToXYZ, ha]

/-- C2, amended: for every even `faceSize > 0`, the middle pixel `i = j = faceSize/2` of
each face `0..5` is mapped by `outImgToXYZ` to the canonical unit axis of the face. -/
theorem C2_face_centre_even {K : Type} [LinearOrderedField K]
    (faceSize : Int) (hpos : 0 < faceSize) (heven : faceSize % 2 = 0) :
    (outImgToXYZ (faceSize / 2) (faceSize / 2) 0 faceSize : vec3 K) = ⟨0, 1, 0⟩ ∧
    (outImgToXYZ (faceSize / 2) (faceSize / 2) 1 faceSize : vec3 K) = ⟨0, -1, 0⟩ ∧
    (outImgToXYZ (faceSize / 2) (faceSize / 2) 2 faceSize : vec3 K) = ⟨0, 0, 1⟩ ∧
    (outImgToXYZ (faceSize / 2) (faceSize / 2) 3 faceSize : vec3 K) = ⟨0, 0, -1⟩ ∧
    (outImgToXYZ (faceSize / 2) (faceSize / 2) 4 faceSize : vec3 K) = ⟨1, 0, 0⟩ ∧
    (outImgToXYZ (faceSize / 2) (faceSize / 2) 5 faceSize : vec3 K) = ⟨-1, 0, 0⟩ :=
  face_centre_of_even faceSize hpos heven

/-- Witness for `C2_face_centre_even`: `faceSize = 4`, middle pixel `(2, 2)`. -/
theorem C2_face_centre_even_witness :
    (0 : Int) < 4 ∧ (4 : Int) % 2 = 0 ∧
    (outImgToXYZ ((4 : Int) / 2) ((4 : Int) / 2) 0 4 : vec3 ℚ) = ⟨0, 1, 0⟩ :=
  ⟨by decide, by decide, (C2_face_centre_even 4 (by decide) (by decide)).1⟩

/-- C8: for `faceSize > 0` and all integers `i`, `j`, with `a = 2*i/faceSize` and
`b = 2*j/faceSize`, `outImgToXYZ` returns the table entry of the face for the face
indices `0..5` and the zero vector for every other face index. -/
theorem C8_face_direction_table {K : Type} [LinearOrderedField K]
    (i j faceIdx faceSize : Int) (hpos : 0 < faceSize) :
    (faceIdx = 0 → (outImgToXYZ i j faceIdx faceSize : vec3 K) =
      ⟨1 - 2 * (i : K) / faceSize, 1, 1 - 2 * (j : K) / faceSize⟩) ∧
    (faceIdx = 1 → (outImgToXYZ i j faceIdx faceSize : vec3 K) =
      ⟨2 * (i : K) / faceSize - 1, -1, 1 - 2 * (j : K) / faceSize⟩) ∧
    (faceIdx = 2 → (outImgToXYZ i j faceIdx faceSize : vec3 K) =
      ⟨2 * (j : K) / faceSize - 1, 2 * (i : K) / faceSize - 1, 1⟩) ∧
    (faceIdx = 3 → (outImgToXYZ i j faceIdx faceSize : vec3 K) =
      ⟨1 - 2 * (j : K) / faceSize, 2 * (i : K) / faceSize - 1, -1⟩) ∧
    (faceIdx = 4 → (outImgToXYZ i j faceIdx faceSize : vec3 K) =
      ⟨1, 2 * (i : K) / faceSize - 1, 1 - 2 * (j : K) / faceSize⟩) ∧
    (faceIdx = 5 → (outImgToXYZ i j faceIdx faceSize : vec3 K) =
      ⟨-1, 1 - 2 * (i : K) / faceSize, 1 - 2 * (j : K) / faceSize⟩) ∧
    ((faceIdx < 0 ∨ 5 < faceIdx) → (outImgToXYZ i j faceIdx faceSize : vec3 K) = ⟨0, 0, 0⟩) := by
  refine ⟨?_, ?_, ?_, ?_, ?_, ?_, ?_⟩
  · intro h; subst h; simp [outImgToXYZ]
  · intro h; subst h; simp [outImgToXYZ]
  · intro h; subst h; simp [outImgToXYZ]
  · intro h; subst h; simp [outImgToXYZ]
  · intro h; subst h; simp [outImgToXYZ]
  · intro h; subst h; simp [outImgToXYZ]
  · intro h
    have h0 : faceIdx ≠ 0 := by omega
    have h1 : faceIdx ≠ 1 := by omega
    have h2 : faceIdx ≠ 2 := by omega
    have h3 : faceIdx ≠ 3 := by omega
    have h4 : faceIdx ≠ 4 := by omega
    have h5 : faceIdx ≠ 5 := by omega
    simp [outImgToXYZ, h0, h1, h2, h3, h4, h5]

/-- Witness for `C8_face_direction_table`: pixel `(1, 3)` of face 2 at `faceSize = 4`,
where `a = 1/2` and `b = 3/2`. -/
theorem C8_face_direction_table_witness :
    (0 : Int) < 4 ∧ (outImgToXYZ 1 3 2 4 : vec3 ℚ) = ⟨1 / 2, -1 / 2, 1⟩ := by
  refine ⟨by decide, ?_⟩
  have h := (C8_face_direction_table (K := ℚ) 1 3 2 4 (by decide)).2.2.1 rfl
  rw [h]
  norm_num

/-! ## C3: the sampler's accesses -/

/-- C3, as stated, fails for negative `u` and for `u` beyond the range of `int`: on a
`4 × 2` grid, `u = -1/2` gives `x = -1` and Go's remainder `-1 % 4 = -1`, so `A` is
fetched at column `-1`; on a `3 × 2` grid, `u = 10^19` gives `xf = 2 * 10^19 ≥ 2^63`, so
`x = int(xf) = -2^63` and `A` is fetched at column `-2^63 % 3 = -2`. -/
theorem C3_out_of_range_u_counterexample :
    (coordA (uniformGrid 4 2 ⟨128, 64, 32, 255⟩) (-1 / 2 : ℝ) 0).1 = -1 ∧
    ¬ (0 ≤ (coordA (uniformGrid 4 2 ⟨128, 64, 32, 255⟩) (-1 / 2 : ℝ) 0).1) ∧
    (coordA (uniformGrid 3 2 ⟨128, 64, 32, 255⟩) (10 ^ 19 : ℝ) 0).1 = -2 ∧
    ¬ (0 ≤ (coordA (uniformGrid 3 2 ⟨128, 64, 32, 255⟩) (10 ^ 19 : ℝ) 0).1) := by
  have h : (coordA (uniformGrid 4 2 ⟨128, 64, 32, 255⟩) (-1 / 2 : ℝ) 0).1 = -1 := by
    have hb : base (uniformGrid 4 2 ⟨128, 64, 32, 255⟩) (-1 / 2 : ℝ) = -1 := by
      rw [base_eq_floor _ _ (by simp only [uniformGrid]; norm_num)
        (by simp only [uniformGrid]; norm_num)]
      simp only [uniformGrid]
      norm_num
    simp only [coordA, hb]
    decide
  have h2 : (coordA (uniformGrid 3 2 ⟨128, 64, 32, 255⟩) (10 ^ 19 : ℝ) 0).1 = -2 := by
    have hb : base (uniformGrid 3 2 ⟨128, 64, 32, 255⟩) (10 ^ 19 : ℝ) = -(2 ^ 63) :=
      base_of_overflow _ _ (by simp only [uniformGrid]; norm_num)
    simp only [coordA, hb]
    decide
  rw [h, h2]
  exact ⟨rfl, by decide, rfl, by decide⟩

/-- C3, amended: for every grid with `W ≥ 1` and `H ≥ 1`, every `u ≥ 0` whose scaled
coordinate `u*H` is at most `2^62` (so that `int(math.Floor(xf))` stays inside the range of
`int`; values of `u` above `1` included) and every `v` (negative and large values
included), each of the four points `A`, `B`, `C`, `D` that `textureLookup` passes to
`img.At` has `0 ≤ column < W` and `0 ≤ row < H`. -/
theorem C3_coords_in_bounds {K : Type} [LinearOrderedField K] [FloorRing K]
    (img : Image) (hW : 1 ≤ img.Dx) (hH : 1 ≤ img.Dy) (u v : K) (hu : 0 ≤ u)
    (hu2 : u * (img.Dy : K) ≤ 2 ^ 62) :
    (0 ≤ (coordA img u v).1 ∧ (coordA img u v).1 < img.Dx ∧
      0 ≤ (coordA img u v).2 ∧ (coordA img u v).2 < img.Dy) ∧
    (0 ≤ (coordB img u v).1 ∧ (coordB img u v).1 < img.Dx ∧
      0 ≤ (coordB img u v).2 ∧ (coordB img u v).2 < img.Dy) ∧
    (0 ≤ (coordC img u v).1 ∧ (coordC img u v).1 < img.Dx ∧
      0 ≤ (coordC img u v).2 ∧ (coordC img u v).2 < img.Dy) ∧
    (0 ≤ (coordD img u v).1 ∧ (coordD img u v).1 < img.Dx ∧
      0 ≤ (coordD img u v).2 ∧ (coordD img u v).2 < img.Dy) := by
  have h63 : u * (img.Dy : K) < 2 ^ 63 := lt_of_le_of_lt hu2 (by norm_num)
  have hx := wrapX_bounds img hW (base img u) (base_nonneg img u hu h63)
  have hx2 := clampX_bounds (K := K) img hW (addInt (base img u) 1)
  have hy := clampY_bounds (K := K) img hH (base img v)
  have hy2 := clampY_bounds (K := K) img hH (addInt (base img v) 1)
  exact ⟨⟨hx.1, hx.2, hy.1, hy.2⟩, ⟨hx2.1, hx2.2, hy.1, hy.2⟩,
    ⟨hx.1, hx.2, hy2.1, hy2.2⟩, ⟨hx2.1, hx2.2, hy2.1, hy2.2⟩⟩

/-- Witness for `C3_coords_in_bounds`: a `4 × 2` grid sampled at `u = 7/2`, `v = -3`. -/
theorem C3_coords_in_bounds_witness :
    1 ≤ (uniformGrid 4 2 ⟨128, 64, 32, 255⟩).Dx ∧ 1 ≤ (uniformGrid 4 2 ⟨128, 64, 32, 255⟩).Dy ∧
    (0 : ℚ) ≤ 7 / 2 ∧ (7 / 2 : ℚ) * ((uniformGrid 4 2 ⟨128, 64, 32, 255⟩).Dy : ℚ) ≤ 2 ^ 62 ∧
    0 ≤ (coordA (uniformGrid 4 2 ⟨128, 64, 32, 255⟩) (7 / 2 : ℚ) (-3)).1 ∧
    (coordA (uniformGrid 4 2 ⟨128, 64, 32, 255⟩) (7 / 2 : ℚ) (-3)).1 <
      (uniformGrid 4 2 ⟨128, 64, 32, 255⟩).Dx := by
  have hb : (7 / 2 : ℚ) * ((uniformGrid 4 2 ⟨128, 64, 32, 255⟩).Dy : ℚ) ≤ 2 ^ 62 := by
    simp only [uniformGrid]
    norm_num
  exact ⟨by decide, by decide, by norm_num, hb,
    (C3_coords_in_bounds (uniformGrid 4 2 ⟨128, 64, 32, 255⟩) (by decide) (by decide)
      (7 / 2 : ℚ) (-3) (by norm_num) hb).1.1,
    (C3_coords_in_bounds (uniformGrid 4 2 ⟨128, 64, 32, 255⟩) (by decide) (by decide)
      (7 / 2 : ℚ) (-3) (by norm_num) hb).1.2.1⟩

/-! ## C4, C6: the spherical UV mapper -/

/-- C4, as stated, fails: `u = 2` is produced. At `faceSize = 2`, pixel `(1, 0)` of
face 5 has direction `(-1, 0, 1)`, so `theta = Atan2(0, -1) = π` and `u = 2`. -/
theorem C4_u_eq_two_counterexample :
    (0 : Int) ≤ 1 ∧ (1 : Int) < 2 ∧ (0 : Int) ≤ 0 ∧ (0 : Int) < 2 ∧
    (sampleSphere (outImgToXYZ 1 0 5 2)).x = 2 ∧
    ¬ ((sampleSphere (outImgToXYZ 1 0 5 2)).x < 2) := by
  have h : (sampleSphere (outImgToXYZ 1 0 5 2)).x = 2 := by
    have hd : (outImgToXYZ 1 0 5 2 : vec3 ℝ) = ⟨-1, 0, 1⟩ := by
      simp [outImgToXYZ]
    rw [hd]
    have ht : Atan2 0 (-1) = Real.pi := by
      simp [Atan2]
    simp only [sampleSphere, ht]
    field_simp
    ring
  refine ⟨by decide, by decide, by decide, by decide, h, ?_⟩
  rw [h]
  exact lt_irrefl 2

/-- C4, amended: for every direction that `outImgToXYZ` produces for a valid pixel
(`0 ≤ i, j < faceSize`, face `0..5`), the `u` component of `sampleSphere` lies in the
closed interval `[0, 2]` (the value `2` is attained). -/
theorem C4_u_range (i j faceIdx faceSize : Int) (hpos : 0 < faceSize)
    (hi : 0 ≤ i ∧ i < faceSize) (hj : 0 ≤ j ∧ j < faceSize)
    (hface : 0 ≤ faceIdx ∧ faceIdx ≤ 5) :
    0 ≤ (sampleSphere (outImgToXYZ i j faceIdx faceSize)).x ∧
    (sampleSphere (outImgToXYZ i j faceIdx faceSize)).x ≤ 2 :=
  ⟨(sampleSphere_x_pos _).le, sampleSphere_x_le _⟩

/-- Witness for `C4_u_range`: pixel `(1, 0)` of face 5 at `faceSize = 2`. -/
theorem C4_u_range_witness :
    (0 : Int) < 2 ∧ ((0 : Int) ≤ 1 ∧ (1 : Int) < 2) ∧ ((0 : Int) ≤ 0 ∧ (0 : Int) < 2) ∧
    ((0 : Int) ≤ 5 ∧ (5 : Int) ≤ 5) ∧
    (sampleSphere (outImgToXYZ 1 0 5 2)).x ≤ 2 :=
  ⟨by decide, by decide, by decide, by decide,
    (C4_u_range 1 0 5 2 (by decide) (by decide) (by decide) (by decide)).2⟩

theorem sampleSphere_north_pole : sampleSphere ⟨0, 0, 1⟩ = ⟨1, 0, 0⟩ := by
  have h1 : Atan2 0 0 = 0 := by simp [Atan2]
  have h2 : Hypot 0 0 = 0 := by simp [Hypot]
  have h3 : Atan2 1 0 = Real.pi / 2 := by simp [Atan2]
  simp only [sampleSphere, h1, h2, h3]
  have hpi : Real.pi ≠ 0 := Real.pi_ne_zero
  simp [hpi]

theorem diff_eq_zero_of_int {K : Type} [LinearOrderedField K] [FloorRing K]
    (img : Image) (u : K) (n : Int) (h : u * (img.Dy : K) = (n : K))
    (hn1 : -(2 ^ 63) ≤ n) (hn2 : n < 2 ^ 63) :
    base img u = n ∧ diff img u = 0 := by
  have hb : base img u = n := by
    simp only [base, scaled, h, Int.floor_intCast]
    exact toInt_intCast n hn1 hn2
  refine ⟨hb, ?_⟩
  simp [diff, scaled, hb, h]

/-- The lookup at `u = 1`, `v = 0`: both offsets vanish and only pixel `A`, at column
`H mod W` of row `0`, contributes. -/
theorem textureLookup_one_zero (img : Image) (hH : 1 ≤ img.Dy) :
    diff img (1 : ℝ) = 0 ∧ diff img (0 : ℝ) = 0 ∧
    coordA img (1 : ℝ) 0 = (((img.Dy % img.Dx : Nat) : Int), 0) ∧
    textureLookup img (1 : ℝ) 0 =
      ⟨clamp (colorToVec3 (img.At ((img.Dy % img.Dx : Nat) : Int) 0)).x 0 255,
       clamp (colorToVec3 (img.At ((img.Dy % img.Dx : Nat) : Int) 0)).y 0 255,
       clamp (colorToVec3 (img.At ((img.Dy % img.Dx : Nat) : Int) 0)).z 0 255⟩ := by
  have hlt := Dy_lt_cast img
  have hx := diff_eq_zero_of_int (K := ℝ) img 1 (img.Dy : Int) (by simp) (by omega) (by omega)
  have hy := diff_eq_zero_of_int (K := ℝ) img 0 0 (by simp) (by norm_num) (by norm_num)
  have hA : coordA img (1 : ℝ) 0 = (((img.Dy % img.Dx : Nat) : Int), 0) := by
    have hH1 : (1 : Int) ≤ (img.Dy : Int) := by exact_mod_cast hH
    simp only [coordA, hx.1, hy.1, wrapX, clampY_eq]
    rw [Int.tmod_eq_emod (Int.natCast_nonneg _) (Int.natCast_nonneg _)]
    refine Prod.ext (by simp) ?_
    show min (max (0 : Int) 0) ((img.Dy : Int) - 1) = 0
    rw [max_self]
    exact min_eq_left (by omega)
  refine ⟨hx.2, hy.2, hA, ?_⟩
  simp only [textureLookup, hx.2, hy.2, hA]
  simp

/-- C6: for every even `faceSize > 0` the centre pixel of face 2 is mapped by
`sampleSphere ∘ outImgToXYZ` to the UV `(1, 0, 0)` of the north pole; at that UV, on
every grid (`W, H ≥ 1`), `textureLookup` has `diffx = diffy = 0`, fetches `A` at column
`H mod W` of row `0`, and returns the colour of that one pixel, scaled by `colorToVec3`
and clamped. -/
theorem C6_north_pole (faceSize : Int) (hpos : 0 < faceSize) (heven : faceSize % 2 = 0)
    (img : Image) (hW : 1 ≤ img.Dx) (hH : 1 ≤ img.Dy) :
    sampleSphere (outImgToXYZ (faceSize / 2) (faceSize / 2) 2 faceSize) = ⟨1, 0, 0⟩ ∧
    diff img (sampleSphere (outImgToXYZ (faceSize / 2) (faceSize / 2) 2 faceSize)).x = 0 ∧
    diff img (sampleSphere (outImgToXYZ (faceSize / 2) (faceSize / 2) 2 faceSize)).y = 0 ∧
    coordA img (sampleSphere (outImgToXYZ (faceSize / 2) (faceSize / 2) 2 faceSize)).x
        (sampleSphere (outImgToXYZ (faceSize / 2) (faceSize / 2) 2 faceSize)).y
      = (((img.Dy % img.Dx : Nat) : Int), 0) ∧
    textureLookup img (sampleSphere (outImgToXYZ (faceSize / 2) (faceSize / 2) 2 faceSize)).x
        (sampleSphere (outImgToXYZ (faceSize / 2) (faceSize / 2) 2 faceSize)).y =
      ⟨clamp (colorToVec3 (img.At ((img.Dy % img.Dx : Nat) : Int) 0)).x 0 255,
       clamp (colorToVec3 (img.At ((img.Dy % img.Dx : Nat) : Int) 0)).y 0 255,
       clamp (colorToVec3 (img.At ((img.Dy % img.Dx : Nat) : Int) 0)).z 0 255⟩ := by
  have hdir : (outImgToXYZ (faceSize / 2) (faceSize / 2) 2 faceSize : vec3 ℝ) = ⟨0, 0, 1⟩ :=
    (face_centre_of_even faceSize hpos heven).2.2.1
  have huv : sampleSphere (outImgToXYZ (faceSize / 2) (faceSize / 2) 2 faceSize) = ⟨1, 0, 0⟩ := by
    rw [hdir]; exact sampleSphere_north_pole
  rw [huv]
  exact ⟨rfl, textureLookup_one_zero img hH⟩

/-- Witness for `C6_north_pole`: `faceSize = 2` and a uniform `4 × 2` grid. -/
theorem C6_north_pole_witness :
    (0 : Int) < 2 ∧ (2 : Int) % 2 = 0 ∧
    1 ≤ (uniformGrid 4 2 ⟨128, 64, 32, 255⟩).Dx ∧ 1 ≤ (uniformGrid 4 2 ⟨128, 64, 32, 255⟩).Dy ∧
    sampleSphere (outImgToXYZ ((2 : Int) / 2) ((2 : Int) / 2) 2 2) = ⟨1, 0, 0⟩ :=
  ⟨by decide, by decide, by decide, by decide,
    (C6_north_pole 2 (by decide) (by decide) (uniformGrid 4 2 ⟨128, 64, 32, 255⟩)
      (by decide) (by decide)).1⟩

/-! ## C5: the seam -/

theorem base_eq_of_mem {K : Type} [LinearOrderedField K] [FloorRing K]
    (img : Image) (u : K) (n : Int) (h1 : (n : K) ≤ u * (img.Dy : K))
    (h2 : u * (img.Dy : K) < (n : K) + 1) (hn1 : -(2 ^ 63) ≤ n) (hn2 : n < 2 ^ 63) :
    base img u = n := by
  have hf : ⌊u * (img.Dy : K)⌋ = n := Int.floor_eq_iff.mpr ⟨h1, h2⟩
  simp only [base, scaled, hf]
  exact toInt_intCast n hn1 hn2

/-- Inside the range of `int` the offset `diffx` is the fractional part of `xf`. -/
theorem diff_mem {K : Type} [LinearOrderedField K] [FloorRing K] (img : Image) (u : K)
    (h1 : -(2 ^ 63 : K) ≤ u * (img.Dy : K)) (h2 : u * (img.Dy : K) < (2 ^ 63 : K)) :
    0 ≤ diff img u ∧ diff img u < 1 := by
  have h : diff img u = Int.fract (u * (img.Dy : K)) := by
    simp only [diff, scaled, base_eq_floor img u h1 h2]
    exact Int.self_sub_floor _
  rw [h]
  exact ⟨Int.fract_nonneg _, Int.fract_lt_one _⟩

theorem abs_clamp_sub_clamp_le {K : Type} [LinearOrderedField K] (a b lo hi : K) :
    |clamp a lo hi - clamp b lo hi| ≤ |a - b| := by
  unfold clamp
  calc |min (max a lo) hi - min (max b lo) hi|
      ≤ max |max a lo - max b lo| |hi - hi| := abs_min_sub_min_le_max _ _ _ _
    _ ≤ |a - b| := by
        rw [sub_self, abs_zero]
        exact max_le (abs_max_sub_max_le_abs _ _ _) (abs_nonneg _)

/-- The two blends at the seam: with the offsets `1 - d` (columns `A = B = a0`) and `d`
(columns `a0`, `a1`) they differ by at most `d * M` when all samples lie in `[0, M]`. -/
theorem seam_blend_bound {K : Type} [LinearOrderedField K]
    (a0 a1 c0 c1 d e M : K) (hd0 : 0 ≤ d) (he0 : 0 ≤ e) (he1 : e ≤ 1)
    (ha0 : 0 ≤ a0 ∧ a0 ≤ M) (ha1 : 0 ≤ a1 ∧ a1 ≤ M)
    (hc0 : 0 ≤ c0 ∧ c0 ≤ M) (hc1 : 0 ≤ c1 ∧ c1 ≤ M) :
    |(a0 * (1 - (1 - d)) * (1 - e) + a0 * (1 - d) * (1 - e)
        + c0 * (1 - (1 - d)) * e + c0 * (1 - d) * e)
      - (a0 * (1 - d) * (1 - e) + a1 * d * (1 - e) + c0 * (1 - d) * e + c1 * d * e)|
      ≤ d * M := by
  have key : (a0 * (1 - (1 - d)) * (1 - e) + a0 * (1 - d) * (1 - e)
        + c0 * (1 - (1 - d)) * e + c0 * (1 - d) * e)
      - (a0 * (1 - d) * (1 - e) + a1 * d * (1 - e) + c0 * (1 - d) * e + c1 * d * e)
      = d * ((1 - e) * (a0 - a1) + e * (c0 - c1)) := by ring
  rw [key, abs_mul, abs_of_nonneg hd0]
  apply mul_le_mul_of_nonneg_left _ hd0
  have he' : 0 ≤ 1 - e := by linarith
  have h1 : |a0 - a1| ≤ M := abs_le.mpr ⟨by linarith [ha0.1, ha1.2], by linarith [ha0.2, ha1.1]⟩
  have h2 : |c0 - c1| ≤ M := abs_le.mpr ⟨by linarith [hc0.1, hc1.2], by linarith [hc0.2, hc1.1]⟩
  calc |(1 - e) * (a0 - a1) + e * (c0 - c1)|
      ≤ |(1 - e) * (a0 - a1)| + |e * (c0 - c1)| := abs_add _ _
    _ = (1 - e) * |a0 - a1| + e * |c0 - c1| := by
        rw [abs_mul, abs_mul, abs_of_nonneg he', abs_of_nonneg he0]
    _ ≤ (1 - e) * M + e * M :=
        add_le_add (mul_le_mul_of_nonneg_left h1 he') (mul_le_mul_of_nonneg_left h2 he0)
    _ = M := by ring

theorem colorToVec3_nonneg {K : Type} [LinearOrderedField K] (c : Color) :
    (0 : K) ≤ (colorToVec3 c).x ∧ (0 : K) ≤ (colorToVec3 c).y ∧ (0 : K) ≤ (colorToVec3 c).z := by
  simp only [colorToVec3]
  exact ⟨by positivity, by positivity, by positivity⟩

/-- C5, amended: the seam of the sampler is at `u = W/H` (`u = 2` for a 2:1 panorama),
not at `u = 1`. For every grid (`W, H ≥ 1`) whose columns `0` and `W-1` hold equal
colours in every row, every `v` with `|v*H| ≤ 2^62` (so that `int(math.Floor(yf))` stays
inside the range of `int`), every `eps` with `0 < eps*H < 1` and every bound `M` on the
channel values the grid yields, each channel of `textureLookup(grid, W/H - eps, v)`
differs from the same channel of `textureLookup(grid, eps, v)` by at most `2*eps*H*M`. -/
theorem C5_seam_at_right_edge {K : Type} [LinearOrderedField K] [FloorRing K]
    (img : Image) (hW : 1 ≤ img.Dx) (hH : 1 ≤ img.Dy)
    (hcols : ∀ y : Int, 0 ≤ y → y < img.Dy → img.At 0 y = img.At ((img.Dx : Int) - 1) y)
    (v eps M : K) (hv1 : -(2 ^ 62) ≤ v * (img.Dy : K)) (hv2 : v * (img.Dy : K) ≤ 2 ^ 62)
    (h0 : 0 < eps * (img.Dy : K)) (h1 : eps * (img.Dy : K) < 1)
    (hM : ∀ x y : Int, 0 ≤ x → x < img.Dx → 0 ≤ y → y < img.Dy →
      (colorToVec3 (img.At x y)).x ≤ M ∧ (colorToVec3 (img.At x y)).y ≤ M ∧
        (colorToVec3 (img.At x y)).z ≤ M) :
    |(textureLookup img ((img.Dx : K) / (img.Dy : K) - eps) v).x - (textureLookup img eps v).x|
      ≤ 2 * eps * (img.Dy : K) * M ∧
    |(textureLookup img ((img.Dx : K) / (img.Dy : K) - eps) v).y - (textureLookup img eps v).y|
      ≤ 2 * eps * (img.Dy : K) * M ∧
    |(textureLookup img ((img.Dx : K) / (img.Dy : K) - eps) v).z - (textureLookup img eps v).z|
      ≤ 2 * eps * (img.Dy : K) * M := by
  have hWi : (1 : Int) ≤ (img.Dx : Int) := by exact_mod_cast hW
  have hHne : (img.Dy : K) ≠ 0 := by
    have : (0 : K) < (img.Dy : K) := by exact_mod_cast hH
    exact this.ne'
  have hsc : ((img.Dx : K) / (img.Dy : K) - eps) * (img.Dy : K)
      = (img.Dx : K) - eps * (img.Dy : K) := by
    rw [sub_mul, div_mul_cancel₀ _ hHne]
  -- the lookup just right of `u = 0`
  have hWlt := Dx_lt_cast img
  have hb1 : base img eps = 0 :=
    base_eq_of_mem img eps 0 (by simpa using h0.le) (by simpa using h1) (by norm_num)
      (by norm_num)
  have hd1 : diff img eps = eps * (img.Dy : K) := by simp [diff, scaled, hb1]
  -- the lookup just left of `u = W/H`
  have hb2 : base img ((img.Dx : K) / (img.Dy : K) - eps) = (img.Dx : Int) - 1 := by
    refine base_eq_of_mem _ _ _ ?_ ?_ (by omega) (by omega)
    · rw [hsc]; push_cast; linarith
    · rw [hsc]; push_cast; linarith
  have hd2 : diff img ((img.Dx : K) / (img.Dy : K) - eps) = 1 - eps * (img.Dy : K) := by
    simp only [diff, scaled, hb2, hsc]
    push_cast
    ring
  have hw1 : wrapX img 0 = 0 := by simp [wrapX]
  have hw2 : wrapX img ((img.Dx : Int) - 1) = (img.Dx : Int) - 1 := by
    unfold wrapX
    exact Int.tmod_eq_of_lt (by omega) (by omega)
  have ha1 : addInt 0 1 = 1 := by decide
  have ha2 : addInt ((img.Dx : Int) - 1) 1 = (img.Dx : Int) :=
    (addInt_eq _ _ (by omega) (by omega)).trans (by omega)
  have hc2 : clampX K img (img.Dx : Int) = (img.Dx : Int) - 1 := by
    rw [clampX_eq]
    rw [max_eq_left (by omega), min_eq_right (by omega)]
  have hcx := clampX_bounds (K := K) img hW 1
  have hy := clampY_bounds (K := K) img hH (base img v)
  have hy2 := clampY_bounds (K := K) img hH (addInt (base img v) 1)
  have he := diff_mem img v (le_trans (by norm_num) hv1) (lt_of_le_of_lt hv2 (by norm_num))
  have hA := hM 0 (clampY K img (base img v)) le_rfl (by omega) hy.1 hy.2
  have hB := hM (clampX K img 1) (clampY K img (base img v)) hcx.1 hcx.2 hy.1 hy.2
  have hC := hM 0 (clampY K img (addInt (base img v) 1)) le_rfl (by omega) hy2.1 hy2.2
  have hD := hM (clampX K img 1) (clampY K img (addInt (base img v) 1)) hcx.1 hcx.2
    hy2.1 hy2.2
  have nA := colorToVec3_nonneg (K := K) (img.At 0 (clampY K img (base img v)))
  have nB := colorToVec3_nonneg (K := K)
    (img.At (clampX K img 1) (clampY K img (base img v)))
  have nC := colorToVec3_nonneg (K := K) (img.At 0 (clampY K img (addInt (base img v) 1)))
  have nD := colorToVec3_nonneg (K := K)
    (img.At (clampX K img 1) (clampY K img (addInt (base img v) 1)))
  have hM0 : 0 ≤ M := le_trans nA.1 hA.1
  have hfin : eps * (img.Dy : K) * M ≤ 2 * eps * (img.Dy : K) * M := by
    have : 0 ≤ eps * (img.Dy : K) * M := mul_nonneg h0.le hM0
    linarith
  simp only [textureLookup, coordA, coordB, coordC, coordD, hb1, hb2, hd1, hd2, hw1, hw2, ha1,
    ha2, hc2, ← hcols _ hy.1 hy.2, ← hcols _ hy2.1 hy2.2]
  refine ⟨?_, ?_, ?_⟩
  · exact le_trans (abs_clamp_sub_clamp_le _ _ _ _) (le_trans
      (seam_blend_bound _ _ _ _ _ _ M h0.le he.1 he.2.le ⟨nA.1, hA.1⟩ ⟨nB.1, hB.1⟩
        ⟨nC.1, hC.1⟩ ⟨nD.1, hD.1⟩) hfin)
  · exact le_trans (abs_clamp_sub_clamp_le _ _ _ _) (le_trans
      (seam_blend_bound _ _ _ _ _ _ M h0.le he.1 he.2.le ⟨nA.2.1, hA.2.1⟩ ⟨nB.2.1, hB.2.1⟩
        ⟨nC.2.1, hC.2.1⟩ ⟨nD.2.1, hD.2.1⟩) hfin)
  · exact le_trans (abs_clamp_sub_clamp_le _ _ _ _) (le_trans
      (seam_blend_bound _ _ _ _ _ _ M h0.le he.1 he.2.le ⟨nA.2.2, hA.2.2⟩ ⟨nB.2.2, hB.2.2⟩
        ⟨nC.2.2, hC.2.2⟩ ⟨nD.2.2, hD.2.2⟩) hfin)

/-- Witness for `C5_seam_at_right_edge`: the grid `seamGrid` (`W/H = 2`), `v = 0`,
`eps = 1/8` and the bound `M = 257`. -/
theorem C5_seam_at_right_edge_witness :
    1 ≤ seamGrid.Dx ∧ 1 ≤ seamGrid.Dy ∧
    -(2 ^ 62) ≤ (0 : ℚ) * (seamGrid.Dy : ℚ) ∧ (0 : ℚ) * (seamGrid.Dy : ℚ) ≤ 2 ^ 62 ∧
    (0 : ℚ) < 1 / 8 * (seamGrid.Dy : ℚ) ∧ (1 / 8 : ℚ) * (seamGrid.Dy : ℚ) < 1 ∧
    |(textureLookup seamGrid ((seamGrid.Dx : ℚ) / (seamGrid.Dy : ℚ) - 1 / 8) 0).x
        - (textureLookup seamGrid (1 / 8 : ℚ) 0).x|
      ≤ 2 * (1 / 8) * (seamGrid.Dy : ℚ) * 257 := by
  have hDy : (seamGrid.Dy : ℚ) = 2 := by simp [seamGrid]
  have h0 : (0 : ℚ) < 1 / 8 * (seamGrid.Dy : ℚ) := by rw [hDy]; norm_num
  have h1 : (1 / 8 : ℚ) * (seamGrid.Dy : ℚ) < 1 := by rw [hDy]; norm_num
  have hv1 : -(2 ^ 62) ≤ (0 : ℚ) * (seamGrid.Dy : ℚ) := by rw [zero_mul]; norm_num
  have hv2 : (0 : ℚ) * (seamGrid.Dy : ℚ) ≤ 2 ^ 62 := by rw [zero_mul]; norm_num
  refine ⟨by decide, by decide, hv1, hv2, h0, h1, ?_⟩
  refine (C5_seam_at_right_edge seamGrid (by decide) (by decide) ?_ 0 (1 / 8) 257 hv1 hv2
    h0 h1 ?_).1
  · intro y hy0 hy1
    have hy2 : y < 2 := by simpa [seamGrid] using hy1
    have : y = 0 ∨ y = 1 := by omega
    rcases this with rfl | rfl <;> decide
  · intro x y hx0 hx1 hy0 hy1
    simp only [seamGrid, colorToVec3, RGBA.RGBA]
    split_ifs <;> norm_num

/-- C5, as stated, fails on a 2:1 grid: on `seamGrid` (`W = 4`, `H = 2`, columns `0` and
`3` equal) with `v = 0` and `eps = 1/2048`, the lookup at `u = 1 - eps` reads the white
middle columns `1` and `2` and returns `255`, the lookup at `u = eps` blends columns `0`
and `1` to `257/1024`; the difference exceeds `2*eps*H*M` for `M = 65535`, the largest
raw channel value, and so for every smaller `M` (such as `257 = 65535/255`) as well. -/
theorem C5_seam_at_one_counterexample :
    (∀ y : Int, 0 ≤ y → y < seamGrid.Dy →
      seamGrid.At 0 y = seamGrid.At ((seamGrid.Dx : Int) - 1) y) ∧
    (0 : ℝ) < 1 / 2048 * (seamGrid.Dy : ℝ) ∧ (1 / 2048 : ℝ) * (seamGrid.Dy : ℝ) < 1 ∧
    (∀ x y : Int, (colorToVec3 (seamGrid.At x y) : vec3 ℝ).x ≤ 257) ∧
    (textureLookup seamGrid (1 - 1 / 2048 : ℝ) 0).x = 255 ∧
    (textureLookup seamGrid (1 / 2048 : ℝ) 0).x = 257 / 1024 ∧
    ¬ (|(textureLookup seamGrid (1 - 1 / 2048 : ℝ) 0).x
          - (textureLookup seamGrid (1 / 2048 : ℝ) 0).x|
        ≤ 2 * (1 / 2048) * (seamGrid.Dy : ℝ) * 65535) := by
  have hDy : (seamGrid.Dy : ℝ) = 2 := by simp [seamGrid]
  have hb0 : base seamGrid (0 : ℝ) = 0 :=
    base_eq_of_mem _ _ 0 (by simp) (by simp) (by norm_num) (by norm_num)
  have hbL : base seamGrid (1 / 2048 : ℝ) = 0 :=
    base_eq_of_mem _ _ 0 (by rw [hDy]; norm_num) (by rw [hDy]; norm_num) (by norm_num)
      (by norm_num)
  have hbR : base seamGrid (1 - 1 / 2048 : ℝ) = 1 :=
    base_eq_of_mem _ _ 1 (by rw [hDy]; norm_num) (by rw [hDy]; norm_num) (by norm_num)
      (by norm_num)
  have hd0 : diff seamGrid (0 : ℝ) = 0 := by simp [diff, scaled, hb0]
  have hdL : diff seamGrid (1 / 2048 : ℝ) = 1 / 1024 := by
    simp only [diff, scaled, hbL, hDy]; norm_num
  have hdR : diff seamGrid (1 - 1 / 2048 : ℝ) = 1023 / 1024 := by
    simp only [diff, scaled, hbR, hDy]; norm_num
  have hw0 : wrapX seamGrid 0 = 0 := by decide
  have hw1 : wrapX seamGrid 1 = 1 := by decide
  have hx1 : clampX ℝ seamGrid (addInt 0 1) = 1 := by rw [clampX_eq]; decide
  have hx2 : clampX ℝ seamGrid (addInt 1 1) = 2 := by rw [clampX_eq]; decide
  have hy0 : clampY ℝ seamGrid 0 = 0 := by rw [clampY_eq]; decide
  have hy1 : clampY ℝ seamGrid (addInt 0 1) = 1 := by rw [clampY_eq]; decide
  have hR : (textureLookup seamGrid (1 - 1 / 2048 : ℝ) 0).x = 255 := by
    simp only [textureLookup, coordA, coordB, coordC, coordD, hb0, hbR, hd0, hdR, hw1, hx2,
      hy0, hy1]
    simp only [seamGrid, colorToVec3, RGBA.RGBA, clamp]
    norm_num
  have hL : (textureLookup seamGrid (1 / 2048 : ℝ) 0).x = 257 / 1024 := by
    simp only [textureLookup, coordA, coordB, coordC, coordD, hb0, hbL, hd0, hdL, hw0, hx1,
      hy0, hy1]
    simp only [seamGrid, colorToVec3, RGBA.RGBA, clamp]
    norm_num
  refine ⟨?_, by rw [hDy]; norm_num, by rw [hDy]; norm_num, ?_, hR, hL, ?_⟩
  · intro y hy0 hy1
    have hy2 : y < 2 := by simpa [seamGrid] using hy1
    have : y = 0 ∨ y = 1 := by omega
    rcases this with rfl | rfl <;> decide
  · intro x y
    simp only [seamGrid, colorToVec3, RGBA.RGBA]
    split_ifs <;> norm_num
  · rw [hR, hL, hDy]
    norm_num [abs_of_pos]

/-! ## C9, C10: the driver -/

/-- C9, as stated, fails for zero and for negative sizes, which `strconv.Atoi` accepts:
with `-5` the face loop runs and the writer is invoked for all six faces (each time with
the blank `5 × 5` grid that `image.Rect(0, 0, -5, -5)` yields); with `0` the writer is
invoked for face 0. -/
theorem C9_nonpositive_size_counterexample :
    Atoi "-5" = .ok (-5) ∧
    savedNames (main pngWorld ["e2c", "-5", "in.png", "out"]) =
      ["face0.png", "face1.png", "face2.png", "face3.png", "face4.png", "face5.png"] ∧
    Atoi "0" = .ok 0 ∧
    savedNames (main pngWorld ["e2c", "0", "in.png", "out"]) = ["face0.png"] := by
  refine ⟨rfl, ?_, rfl, ?_⟩
  · rfl
  · rfl

/-- C9, amended: for every invocation with at least three positional arguments whose
`<output_size>` does not parse as an integer (`strconv.Atoi` fails), `main` prints one
error and stops: no face is announced or rendered and the writer is never invoked. -/
theorem C9_parse_failure_aborts (w : World) (prog sizeArg inputImage folder : String)
    (rest : List String) (err : String) (hparse : Atoi sizeArg = .error err) :
    (∃ msg, main w (prog :: sizeArg :: inputImage :: folder :: rest) = [Event.print msg]) ∧
    savedNames (main w (prog :: sizeArg :: inputImage :: folder :: rest)) = [] := by
  simp only [main]
  cases hl : w.loadImage inputImage with
  | error e => exact ⟨⟨_, rfl⟩, rfl⟩
  | ok img =>
    simp only [hparse]
    exact ⟨⟨_, rfl⟩, rfl⟩

/-- Witness for `C9_parse_failure_aborts`: the size argument `abc`. -/
theorem C9_parse_failure_aborts_witness :
    Atoi "abc" = .error "strconv.Atoi: parsing abc: invalid syntax" ∧
    savedNames (main pngWorld ["e2c", "abc", "in.png", "out"]) = [] :=
  ⟨rfl, (C9_parse_failure_aborts pngWorld "e2c" "abc" "in.png" "out" [] _ rfl).2⟩

/-- The face loop entered at face `start`: when the writes of the next `k` faces succeed
and the one after them fails, the writer is invoked for exactly those `k + 1` faces. -/
theorem faceLoop_savedNames_of_fail (w : World) (img : Image) (size : Int) (folder err : String) :
    ∀ (k n start : Nat) (d : Drawable), k < n →
      (∀ j, j < k →
        w.saveImage (drawableSeq img size d start j) folder (faceName (start + j)) = none) →
      w.saveImage (drawableSeq img size d start k) folder (faceName (start + k)) = some err →
      savedNames (faceLoop w img size folder n start d) =
        (List.range (k + 1)).map (fun j => faceName (start + j)) := by
  intro k
  induction k with
  | zero =>
    intro n start d hn _ hfail
    obtain ⟨m, rfl⟩ : ∃ m, n = m + 1 := ⟨n - 1, by omega⟩
    simp only [drawableSeq, Nat.add_zero] at hfail
    simp only [faceLoop, hfail, savedNames]
    rfl
  | succ k ih =>
    intro n start d hn hok hfail
    obtain ⟨m, rfl⟩ : ∃ m, n = m + 1 := ⟨n - 1, by omega⟩
    have h0 := hok 0 (Nat.succ_pos k)
    simp only [drawableSeq, Nat.add_zero] at h0
    have hrec := ih m (start + 1) (renderFace img start size d) (by omega)
      (fun j hj => by
        have := hok (j + 1) (by omega)
        simpa only [drawableSeq, Nat.add_assoc, Nat.add_comm 1 j] using this)
      (by simpa only [drawableSeq, Nat.add_assoc, Nat.add_comm 1 k] using hfail)
    simp only [faceLoop, h0, savedNames, hrec]
    rw [List.range_succ_eq_map (k + 1), List.map_cons, List.map_map]
    simp only [Nat.add_zero, List.cons.injEq, true_and]
    apply List.map_congr_left
    intro j _
    simp only [Function.comp, Nat.succ_eq_add_one]
    congr 1
    omega

/-- C10: in a run that reaches the face loop, if the first failing write is the one for
face `k` (`0 ≤ k ≤ 5`), then `main` has invoked the writer exactly once for each of the
faces `0..k`, in increasing order, and for no other face: face `k` is not retried and no
face after `k` is written. The run has no effect other than printing and invoking the
writer, so the writes of faces `0..k-1` are not undone. -/
theorem C10_abort_on_write_failure (w : World) (prog sizeArg inputImage folder : String)
    (rest : List String) (img : Image) (size : Int) (k : Nat) (err : String)
    (hload : w.loadImage inputImage = .ok img) (hsize : Atoi sizeArg = .ok size)
    (hk : k ≤ 5)
    (hok : ∀ j, j < k →
      w.saveImage (drawableSeq img size (NewRGBA 0 0 size size) 0 j) folder (faceName j) = none)
    (hfail :
      w.saveImage (drawableSeq img size (NewRGBA 0 0 size size) 0 k) folder (faceName k)
        = some err) :
    savedNames (main w (prog :: sizeArg :: inputImage :: folder :: rest)) =
      (List.range (k + 1)).map faceName := by
  have h := faceLoop_savedNames_of_fail w img size folder err k 6 0 (NewRGBA 0 0 size size)
    (by omega) (by simpa using hok) (by simpa using hfail)
  simp only [main, hload, hsize, h]
  apply List.map_congr_left
  intro j _
  simp

/-- Witness for `C10_abort_on_write_failure`: in `failWorld` at size `2` the write of face
`2` is the first to fail, and the writer is invoked for faces `0`, `1`, `2` only. -/
theorem C10_abort_on_write_failure_witness :
    failWorld.loadImage "in.png" = .ok seamGrid ∧ Atoi "2" = .ok 2 ∧ 2 ≤ 5 ∧
    savedNames (main failWorld ["e2c", "2", "in.png", "out"]) =
      ["face0.png", "face1.png", "face2.png"] :=
  ⟨rfl, rfl, by decide,
    C10_abort_on_write_failure failWorld "e2c" "2" "in.png" "out" [] seamGrid 2 2 "write error"
      rfl rfl (by decide)
      (fun j hj => by
        have hj2 : j = 0 ∨ j = 1 := by omega
        rcases hj2 with rfl | rfl
        · show (if faceName 0 = "face2.png" then some "write error" else none) = none
          rw [if_neg (by decide)]
        · show (if faceName 1 = "face2.png" then some "write error" else none) = none
          rw [if_neg (by decide)])
      (by
        show (if faceName 2 = "face2.png" then some "write error" else none) = some "write error"
        rw [if_pos (by decide)])⟩

/-! ## C12, C16: the pipeline stays inside the source grid -/

theorem Hypot_nonneg (p q : ℝ) : 0 ≤ Hypot p q :=
  Real.sqrt_nonneg _

theorem Atan2_abs_le_of_nonneg (z r : ℝ) (hr : 0 ≤ r) :
    -(Real.pi / 2) ≤ Atan2 z r ∧ Atan2 z r ≤ Real.pi / 2 := by
  have hpi := Real.pi_pos
  have h1 := Real.neg_pi_div_two_lt_arctan (z / r)
  have h2 := Real.arctan_lt_pi_div_two (z / r)
  unfold Atan2
  split_ifs with hx hx2 hy hy2 hy3
  · exact ⟨h1.le, h2.le⟩
  · exact absurd hr (not_le.mpr hx2)
  · exact absurd hr (not_le.mpr hx2)
  · exact ⟨by linarith, le_rfl⟩
  · exact ⟨le_rfl, by linarith⟩
  · exact ⟨by linarith, by linarith⟩

theorem sampleSphere_y_mem (p : vec3 ℝ) : 0 ≤ (sampleSphere p).y ∧ (sampleSphere p).y ≤ 1 := by
  have h := Atan2_abs_le_of_nonneg p.z (Hypot p.x p.y) (Hypot_nonneg _ _)
  have hpi := Real.pi_pos
  simp only [sampleSphere]
  constructor
  · exact div_nonneg (by linarith [h.2]) hpi.le
  · rw [div_le_one hpi]
    linarith [h.1]

/-- For `u ≥ 0` with `u*H < 2^63` on a grid with `W, H ≥ 1`, the four points that
`textureLookup` fetches lie inside the grid. -/
theorem coords_in_bounds_of_nonneg {K : Type} [LinearOrderedField K] [FloorRing K]
    (img : Image) (hW : 1 ≤ img.Dx) (hH : 1 ≤ img.Dy) (u v : K) (hu : 0 ≤ u)
    (h63 : u * (img.Dy : K) < (2 ^ 63 : K)) :
    (0 ≤ (coordA img u v).1 ∧ (coordA img u v).1 < img.Dx ∧
      0 ≤ (coordA img u v).2 ∧ (coordA img u v).2 < img.Dy) ∧
    (0 ≤ (coordB img u v).1 ∧ (coordB img u v).1 < img.Dx ∧
      0 ≤ (coordB img u v).2 ∧ (coordB img u v).2 < img.Dy) ∧
    (0 ≤ (coordC img u v).1 ∧ (coordC img u v).1 < img.Dx ∧
      0 ≤ (coordC img u v).2 ∧ (coordC img u v).2 < img.Dy) ∧
    (0 ≤ (coordD img u v).1 ∧ (coordD img u v).1 < img.Dx ∧
      0 ≤ (coordD img u v).2 ∧ (coordD img u v).2 < img.Dy) := by
  have hx := wrapX_bounds img hW (base img u) (base_nonneg img u hu h63)
  have hx2 := clampX_bounds (K := K) img hW (addInt (base img u) 1)
  have hy := clampY_bounds (K := K) img hH (base img v)
  have hy2 := clampY_bounds (K := K) img hH (addInt (base img v) 1)
  exact ⟨⟨hx.1, hx.2, hy.1, hy.2⟩, ⟨hx2.1, hx2.2, hy.1, hy.2⟩,
    ⟨hx.1, hx.2, hy2.1, hy2.2⟩, ⟨hx2.1, hx2.2, hy2.1, hy2.2⟩⟩

/-- C12: for every grid with `W ≥ 1` and `H ≥ 1` (any aspect ratio), every `faceSize > 0`,
every face `0..5` and every pixel `0 ≤ i, j < faceSize`, the UV that
`sampleSphere (outImgToXYZ i j face faceSize)` yields has `0 ≤ u ≤ 2` and `0 ≤ v ≤ 1`, and
the four points `A`, `B`, `C`, `D` that `textureLookup` derives from it lie inside the
grid: `0 ≤ column < W` and `0 ≤ row < H`. -/
theorem C12_pipeline_in_bounds (img : Image) (hW : 1 ≤ img.Dx) (hH : 1 ≤ img.Dy)
    (i j faceIdx faceSize : Int) (hpos : 0 < faceSize)
    (hi : 0 ≤ i ∧ i < faceSize) (hj : 0 ≤ j ∧ j < faceSize)
    (hface : 0 ≤ faceIdx ∧ faceIdx ≤ 5) :
    (0 ≤ (sampleSphere (outImgToXYZ i j faceIdx faceSize)).x ∧
      (sampleSphere (outImgToXYZ i j faceIdx faceSize)).x ≤ 2 ∧
      0 ≤ (sampleSphere (outImgToXYZ i j faceIdx faceSize)).y ∧
      (sampleSphere (outImgToXYZ i j faceIdx faceSize)).y ≤ 1) ∧
    (0 ≤ (coordA img (sampleSphere (outImgToXYZ i j faceIdx faceSize)).x
          (sampleSphere (outImgToXYZ i j faceIdx faceSize)).y).1 ∧
      (coordA img (sampleSphere (outImgToXYZ i j faceIdx faceSize)).x
          (sampleSphere (outImgToXYZ i j faceIdx faceSize)).y).1 < img.Dx ∧
      0 ≤ (coordA img (sampleSphere (outImgToXYZ i j faceIdx faceSize)).x
          (sampleSphere (outImgToXYZ i j faceIdx faceSize)).y).2 ∧
      (coordA img (sampleSphere (outImgToXYZ i j faceIdx faceSize)).x
          (sampleSphere (outImgToXYZ i j faceIdx faceSize)).y).2 < img.Dy) ∧
    (0 ≤ (coordB img (sampleSphere (outImgToXYZ i j faceIdx faceSize)).x
          (sampleSphere (outImgToXYZ i j faceIdx faceSize)).y).1 ∧
      (coordB img (sampleSphere (outImgToXYZ i j faceIdx faceSize)).x
          (sampleSphere (outImgToXYZ i j faceIdx faceSize)).y).1 < img.Dx ∧
      0 ≤ (coordB img (sampleSphere (outImgToXYZ i j faceIdx faceSize)).x
          (sampleSphere (outImgToXYZ i j faceIdx faceSize)).y).2 ∧
      (coordB img (sampleSphere (outImgToXYZ i j faceIdx faceSize)).x
          (sampleSphere (outImgToXYZ i j faceIdx faceSize)).y).2 < img.Dy) ∧
    (0 ≤ (coordC img (sampleSphere (outImgToXYZ i j faceIdx faceSize)).x
          (sampleSphere (outImgToXYZ i j faceIdx faceSize)).y).1 ∧
      (coordC img (sampleSphere (outImgToXYZ i j faceIdx faceSize)).x
          (sampleSphere (outImgToXYZ i j faceIdx faceSize)).y).1 < img.Dx ∧
      0 ≤ (coordC img (sampleSphere (outImgToXYZ i j faceIdx faceSize)).x
          (sampleSphere (outImgToXYZ i j faceIdx faceSize)).y).2 ∧
      (coordC img (sampleSphere (outImgToXYZ i j faceIdx faceSize)).x
          (sampleSphere (outImgToXYZ i j faceIdx faceSize)).y).2 < img.Dy) ∧
    (0 ≤ (coordD img (sampleSphere (outImgToXYZ i j faceIdx faceSize)).x
          (sampleSphere (outImgToXYZ i j faceIdx faceSize)).y).1 ∧
      (coordD img (sampleSphere (outImgToXYZ i j faceIdx faceSize)).x
          (sampleSphere (outImgToXYZ i j faceIdx faceSize)).y).1 < img.Dx ∧
      0 ≤ (coordD img (sampleSphere (outImgToXYZ i j faceIdx faceSize)).x
          (sampleSphere (outImgToXYZ i j faceIdx faceSize)).y).2 ∧
      (coordD img (sampleSphere (outImgToXYZ i j faceIdx faceSize)).x
          (sampleSphere (outImgToXYZ i j faceIdx faceSize)).y).2 < img.Dy) := by
  have hu := sampleSphere_x_pos (outImgToXYZ i j faceIdx faceSize)
  have hu2 := sampleSphere_x_le (outImgToXYZ i j faceIdx faceSize)
  have hv := sampleSphere_y_mem (outImgToXYZ i j faceIdx faceSize)
  exact ⟨⟨hu.le, hu2, hv.1, hv.2⟩,
    coords_in_bounds_of_nonneg img hW hH _ _ hu.le (scaled_lt_of_le_two img _ hu2)⟩

/-- Witness for `C12_pipeline_in_bounds`: a `3 × 5` grid (not 2:1), pixel `(1, 0)` of face 5
at `faceSize = 2`, where `u = 2`. -/
theorem C12_pipeline_in_bounds_witness :
    1 ≤ (uniformGrid 3 5 ⟨128, 64, 32, 255⟩).Dx ∧ 1 ≤ (uniformGrid 3 5 ⟨128, 64, 32, 255⟩).Dy ∧
    (0 : Int) < 2 ∧ ((0 : Int) ≤ 1 ∧ (1 : Int) < 2) ∧ ((0 : Int) ≤ 0 ∧ (0 : Int) < 2) ∧
    ((0 : Int) ≤ 5 ∧ (5 : Int) ≤ 5) ∧
    (coordA (uniformGrid 3 5 ⟨128, 64, 32, 255⟩) (sampleSphere (outImgToXYZ 1 0 5 2)).x
      (sampleSphere (outImgToXYZ 1 0 5 2)).y).1 < (uniformGrid 3 5 ⟨128, 64, 32, 255⟩).Dx :=
  ⟨by decide, by decide, by decide, by decide, by decide, by decide,
    (C12_pipeline_in_bounds (uniformGrid 3 5 ⟨128, 64, 32, 255⟩) (by decide) (by decide)
      1 0 5 2 (by decide) (by decide) (by decide) (by decide)).2.1.2.1⟩

/-- A vector whose components have absolute value at most `1`, one of them exactly `1`,
lies on the surface of the cube `[-1, 1]³`. -/
theorem on_cube_of_abs {K : Type} [LinearOrderedField K] (x y z : K)
    (hx : |x| ≤ 1) (hy : |y| ≤ 1) (hz : |z| ≤ 1) (h : |x| = 1 ∨ |y| = 1 ∨ |z| = 1) :
    (-1 ≤ (⟨x, y, z⟩ : vec3 K).x ∧ (⟨x, y, z⟩ : vec3 K).x ≤ 1) ∧
    (-1 ≤ (⟨x, y, z⟩ : vec3 K).y ∧ (⟨x, y, z⟩ : vec3 K).y ≤ 1) ∧
    (-1 ≤ (⟨x, y, z⟩ : vec3 K).z ∧ (⟨x, y, z⟩ : vec3 K).z ≤ 1) ∧
    max (max |(⟨x, y, z⟩ : vec3 K).x| |(⟨x, y, z⟩ : vec3 K).y|) |(⟨x, y, z⟩ : vec3 K).z| = 1 ∧
    (⟨x, y, z⟩ : vec3 K) ≠ ⟨0, 0, 0⟩ := by
  refine ⟨abs_le.mp hx, abs_le.mp hy, abs_le.mp hz, ?_, ?_⟩
  · apply le_antisymm (max_le (max_le hx hy) hz)
    rcases h with h | h | h
    · exact le_trans h.ge (le_trans (le_max_left _ _) (le_max_left _ _))
    · exact le_trans h.ge (le_trans (le_max_right _ _) (le_max_left _ _))
    · exact le_trans h.ge (le_max_right _ _)
  · intro h0
    have h1 := congrArg vec3.x h0
    have h2 := congrArg vec3.y h0
    have h3 := congrArg vec3.z h0
    simp only at h1 h2 h3
    rcases h with h | h | h
    · rw [h1, abs_zero] at h; exact zero_ne_one h
    · rw [h2, abs_zero] at h; exact zero_ne_one h
    · rw [h3, abs_zero] at h; exact zero_ne_one h

/-- C16: for every `faceSize > 0`, every face `0..5` and every pixel `0 ≤ i, j < faceSize`,
every component of `d = outImgToXYZ i j face faceSize` lies in `[-1, 1]` and
`max (|d.x|, |d.y|, |d.z|) = 1`; in particular `d` is not the zero vector. -/
theorem C16_direction_on_cube {K : Type} [LinearOrderedField K]
    (i j faceIdx faceSize : Int) (hpos : 0 < faceSize)
    (hi : 0 ≤ i ∧ i < faceSize) (hj : 0 ≤ j ∧ j < faceSize)
    (hface : 0 ≤ faceIdx ∧ faceIdx ≤ 5) :
    (-1 ≤ (outImgToXYZ i j faceIdx faceSize : vec3 K).x ∧
      (outImgToXYZ i j faceIdx faceSize : vec3 K).x ≤ 1) ∧
    (-1 ≤ (outImgToXYZ i j faceIdx faceSize : vec3 K).y ∧
      (outImgToXYZ i j faceIdx faceSize : vec3 K).y ≤ 1) ∧
    (-1 ≤ (outImgToXYZ i j faceIdx faceSize : vec3 K).z ∧
      (outImgToXYZ i j faceIdx faceSize : vec3 K).z ≤ 1) ∧
    max (max |(outImgToXYZ i j faceIdx faceSize : vec3 K).x|
        |(outImgToXYZ i j faceIdx faceSize : vec3 K).y|)
      |(outImgToXYZ i j faceIdx faceSize : vec3 K).z| = 1 ∧
    (outImgToXYZ i j faceIdx faceSize : vec3 K) ≠ ⟨0, 0, 0⟩ := by
  have hs : (0 : K) < (faceSize : K) := by exact_mod_cast hpos
  have ha0 : (0 : K) ≤ 2 * (i : K) / (faceSize : K) :=
    div_nonneg (mul_nonneg (by norm_num) (by exact_mod_cast hi.1)) hs.le
  have hb0 : (0 : K) ≤ 2 * (j : K) / (faceSize : K) :=
    div_nonneg (mul_nonneg (by norm_num) (by exact_mod_cast hj.1)) hs.le
  have ha2 : 2 * (i : K) / (faceSize : K) < 2 := by
    rw [div_lt_iff₀ hs]
    have : (i : K) < (faceSize : K) := by exact_mod_cast hi.2
    linarith
  have hb2 : 2 * (j : K) / (faceSize : K) < 2 := by
    rw [div_lt_iff₀ hs]
    have : (j : K) < (faceSize : K) := by exact_mod_cast hj.2
    linarith
  have hA1 : |1 - 2 * (i : K) / (faceSize : K)| ≤ 1 := abs_le.mpr ⟨by linarith, by linarith⟩
  have hA2 : |2 * (i : K) / (faceSize : K) - 1| ≤ 1 := abs_le.mpr ⟨by linarith, by linarith⟩
  have hB1 : |1 - 2 * (j : K) / (faceSize : K)| ≤ 1 := abs_le.mpr ⟨by linarith, by linarith⟩
  have hB2 : |2 * (j : K) / (faceSize : K) - 1| ≤ 1 := abs_le.mpr ⟨by linarith, by linarith⟩
  have h1 : |(1 : K)| = 1 := abs_one
  have hm1 : |(-1 : K)| = 1 := by rw [abs_neg, abs_one]
  obtain ⟨hf0, hf5⟩ := hface
  have hcases : faceIdx = 0 ∨ faceIdx = 1 ∨ faceIdx = 2 ∨ faceIdx = 3 ∨ faceIdx = 4 ∨
      faceIdx = 5 := by omega
  rcases hcases with rfl | rfl | rfl | rfl | rfl | rfl
  · have e : (outImgToXYZ i j 0 faceSize : vec3 K) =
        ⟨1 - 2 * (i : K) / faceSize, 1, 1 - 2 * (j : K) / faceSize⟩ := by simp [outImgToXYZ]
    rw [e]
    exact on_cube_of_abs _ _ _ hA1 h1.le hB1 (Or.inr (Or.inl h1))
  · have e : (outImgToXYZ i j 1 faceSize : vec3 K) =
        ⟨2 * (i : K) / faceSize - 1, -1, 1 - 2 * (j : K) / faceSize⟩ := by simp [outImgToXYZ]
    rw [e]
    exact on_cube_of_abs _ _ _ hA2 hm1.le hB1 (Or.inr (Or.inl hm1))
  · have e : (outImgToXYZ i j 2 faceSize : vec3 K) =
        ⟨2 * (j : K) / faceSize - 1, 2 * (i : K) / faceSize - 1, 1⟩ := by simp [outImgToXYZ]
    rw [e]
    exact on_cube_of_abs _ _ _ hB2 hA2 h1.le (Or.inr (Or.inr h1))
  · have e : (outImgToXYZ i j 3 faceSize : vec3 K) =
        ⟨1 - 2 * (j : K) / faceSize, 2 * (i : K) / faceSize - 1, -1⟩ := by simp [outImgToXYZ]
    rw [e]
    exact on_cube_of_abs _ _ _ hB1 hA2 hm1.le (Or.inr (Or.inr hm1))
  · have e : (outImgToXYZ i j 4 faceSize : vec3 K) =
        ⟨1, 2 * (i : K) / faceSize - 1, 1 - 2 * (j : K) / faceSize⟩ := by simp [outImgToXYZ]
    rw [e]
    exact on_cube_of_abs _ _ _ h1.le hA2 hB1 (Or.inl h1)
  · have e : (outImgToXYZ i j 5 faceSize : vec3 K) =
        ⟨-1, 1 - 2 * (i : K) / faceSize, 1 - 2 * (j : K) / faceSize⟩ := by simp [outImgToXYZ]
    rw [e]
    exact on_cube_of_abs _ _ _ hm1.le hA1 hB1 (Or.inl hm1)

/-- Witness for `C16_direction_on_cube`: pixel `(3, 1)` of face 3 at `faceSize = 4`, with
direction `(1/2, 1/2, -1)`. -/
theorem C16_direction_on_cube_witness :
    (0 : Int) < 4 ∧ ((0 : Int) ≤ 3 ∧ (3 : Int) < 4) ∧ ((0 : Int) ≤ 1 ∧ (1 : Int) < 4) ∧
    ((0 : Int) ≤ 3 ∧ (3 : Int) ≤ 5) ∧
    max (max |(outImgToXYZ 3 1 3 4 : vec3 ℚ).x| |(outImgToXYZ 3 1 3 4 : vec3 ℚ).y|)
      |(outImgToXYZ 3 1 3 4 : vec3 ℚ).z| = 1 :=
  ⟨by decide, by decide, by decide, by decide,
    (C16_direction_on_cube 3 1 3 4 (by decide) (by decide) (by decide) (by decide)).2.2.2.1⟩

/-! ## C13, C15: lookups at integer coordinates -/

/-- C15: on a grid with `W = 2*H` (`H ≥ 1`), for every `v`,
`textureLookup(grid, 2, v) = textureLookup(grid, 0, v)`: at `u = 2` the column `x = W`
wraps to source column `0`. -/
theorem C15_wrap_at_two {K : Type} [LinearOrderedField K] [FloorRing K]
    (img : Image) (hH : 1 ≤ img.Dy) (h21 : img.Dx = 2 * img.Dy) (v : K) :
    wrapX img (base img (2 : K)) = 0 ∧
    textureLookup img (2 : K) v = textureLookup img (0 : K) v := by
  have hlt := Dx_lt_cast img
  have h2 := diff_eq_zero_of_int (K := K) img 2 (img.Dx : Int) (by rw [h21]; push_cast; ring)
    (by omega) (by omega)
  have h0 := diff_eq_zero_of_int (K := K) img 0 0 (by simp) (by norm_num) (by norm_num)
  have hw2 : wrapX img (img.Dx : Int) = 0 := by simp [wrapX]
  have hw0 : wrapX img 0 = 0 := by simp [wrapX]
  refine ⟨by rw [h2.1, hw2], ?_⟩
  simp only [textureLookup, coordA, coordB, coordC, coordD, h2.1, h2.2, h0.1, h0.2, hw2, hw0]
  simp

/-- Witness for `C15_wrap_at_two`: the `4 × 2` grid `seamGrid` at `v = 1/3`. -/
theorem C15_wrap_at_two_witness :
    1 ≤ seamGrid.Dy ∧ seamGrid.Dx = 2 * seamGrid.Dy ∧
    textureLookup seamGrid (2 : ℚ) (1 / 3) = textureLookup seamGrid (0 : ℚ) (1 / 3) :=
  ⟨by decide, by decide, (C15_wrap_at_two seamGrid (by decide) (by decide) (1 / 3 : ℚ)).2⟩

/-- With both offsets zero only the sample `A` contributes to the blend. -/
theorem textureLookup_of_diff_zero {K : Type} [LinearOrderedField K] [FloorRing K]
    (img : Image) (u v : K) (hx : diff img u = 0) (hy : diff img v = 0) :
    textureLookup img u v =
      ⟨clamp (colorToVec3 (img.At (coordA img u v).1 (coordA img u v).2) : vec3 K).x 0 255,
       clamp (colorToVec3 (img.At (coordA img u v).1 (coordA img u v).2) : vec3 K).y 0 255,
       clamp (colorToVec3 (img.At (coordA img u v).1 (coordA img u v).2) : vec3 K).z 0 255⟩ := by
  simp only [textureLookup, hx, hy]
  simp

/-- The channel written for an opaque 8-bit source channel `c`: `c * 257 / 255`, clamped
at `255` and truncated, is `c` for `c ≤ 127` and for `c = 255`, and `c + 1` otherwise. -/
theorem toUint8_scaled {K : Type} [LinearOrderedField K] [FloorRing K] (c : Nat)
    (hc : c ≤ 255) :
    clamp (((c * 257 : Nat) : K) / 255) 0 255 = min 255 ((c : K) * 257 / 255) ∧
    toUint8 (min (255 : K) ((c : K) * 257 / 255)) = if c ≤ 127 ∨ c = 255 then c else c + 1 := by
  have hc0 : (0 : K) ≤ (c : K) := Nat.cast_nonneg c
  have hx0 : (0 : K) ≤ (c : K) * 257 / 255 := by positivity
  constructor
  · unfold clamp
    push_cast
    rw [max_eq_left hx0, min_comm]
  · by_cases h1 : c ≤ 127
    · have hK : (c : K) ≤ 127 := by exact_mod_cast h1
      rw [if_pos (Or.inl h1), min_eq_right (by rw [div_le_iff₀ (by norm_num)]; linarith)]
      apply toUint8_of_mem _ c (by omega)
      · rw [le_div_iff₀ (by norm_num)]; linarith
      · rw [div_lt_iff₀ (by norm_num)]; linarith
    · by_cases h2 : c ≤ 253
      · have hK1 : (128 : K) ≤ (c : K) := by exact_mod_cast (by omega : 128 ≤ c)
        have hK2 : (c : K) ≤ 253 := by exact_mod_cast h2
        rw [if_neg (by omega), min_eq_right (by rw [div_le_iff₀ (by norm_num)]; linarith)]
        apply toUint8_of_mem _ (c + 1) (by omega)
        · push_cast; rw [le_div_iff₀ (by norm_num)]; linarith
        · push_cast; rw [div_lt_iff₀ (by norm_num)]; linarith
      · have hK : (254 : K) ≤ (c : K) := by exact_mod_cast (by omega : 254 ≤ c)
        rw [min_eq_left (by rw [le_div_iff₀ (by norm_num)]; linarith)]
        have h255 : toUint8 (255 : K) = 255 :=
          toUint8_of_mem _ 255 (by norm_num) (by norm_num) (by norm_num)
        rw [h255]
        have : c = 254 ∨ c = 255 := by omega
        rcases this with rfl | rfl
        · rw [if_neg (by decide)]
        · rw [if_pos (by decide)]

/-- C13, as stated, fails when `u*H` is an integer outside the range of `int`: on the white
`4 × 2` grid at `u = 2^62`, `v = 0`, both scaled coordinates are integers (`u*H = 2^63`)
and the base pixel `A`, fetched at column `-2^63 % 4 = 0` of row `0`, is opaque white, but
`x = int(xf) = -2^63` and the offset is `diffx = xf - x = 2^64`, not `0`. -/
theorem C13_int_overflow_counterexample :
    (2 ^ 62 : ℝ) * ((uniformGrid 4 2 ⟨255, 255, 255, 255⟩).Dy : ℝ) = (((2 ^ 63 : Int)) : ℝ) ∧
    (0 : ℝ) * ((uniformGrid 4 2 ⟨255, 255, 255, 255⟩).Dy : ℝ) = ((0 : Int) : ℝ) ∧
    (uniformGrid 4 2 ⟨255, 255, 255, 255⟩).At
        (coordA (uniformGrid 4 2 ⟨255, 255, 255, 255⟩) (2 ^ 62 : ℝ) 0).1
        (coordA (uniformGrid 4 2 ⟨255, 255, 255, 255⟩) (2 ^ 62 : ℝ) 0).2
      = (⟨255, 255, 255, 255⟩ : RGBA).RGBA ∧
    base (uniformGrid 4 2 ⟨255, 255, 255, 255⟩) (2 ^ 62 : ℝ) = -(2 ^ 63) ∧
    diff (uniformGrid 4 2 ⟨255, 255, 255, 255⟩) (2 ^ 62 : ℝ) = 2 ^ 64 ∧
    ¬ (diff (uniformGrid 4 2 ⟨255, 255, 255, 255⟩) (2 ^ 62 : ℝ) = 0) := by
  have hDy : ((uniformGrid 4 2 ⟨255, 255, 255, 255⟩).Dy : ℝ) = 2 := by simp [uniformGrid]
  have hbu : base (uniformGrid 4 2 ⟨255, 255, 255, 255⟩) (2 ^ 62 : ℝ) = -(2 ^ 63) :=
    base_of_overflow _ _ (by rw [hDy]; norm_num)
  have hbv : base (uniformGrid 4 2 ⟨255, 255, 255, 255⟩) (0 : ℝ) = 0 :=
    base_eq_of_mem _ _ 0 (by simp) (by simp) (by norm_num) (by norm_num)
  have hd : diff (uniformGrid 4 2 ⟨255, 255, 255, 255⟩) (2 ^ 62 : ℝ) = 2 ^ 64 := by
    simp only [diff, scaled, hbu, hDy]
    norm_num
  refine ⟨by rw [hDy]; norm_num, by simp, ?_, hbu, hd, ?_⟩
  · simp only [coordA, hbu, hbv, clampY_eq]
    decide
  · rw [hd]
    norm_num

/-- C13, amended: on a grid with `W, H ≥ 1`, when `u*H` and `v*H` are integers of absolute
value at most `2^62` (inside the range of `int`, so `diffx = diffy = 0`) and the base pixel
`A` is opaque with the 8-bit channels `cr`, `cg`, `cb`, `textureLookup` returns
`min(255, c*257/255)` in each channel, and `toColor` then writes `c` for `c ≤ 127` and for
`c = 255`, and `c + 1` for `128 ≤ c ≤ 254`. -/
theorem C13_channel_scale {K : Type} [LinearOrderedField K] [FloorRing K]
    (img : Image) (hW : 1 ≤ img.Dx) (hH : 1 ≤ img.Dy) (u v : K) (n m : Int)
    (hu : u * (img.Dy : K) = (n : K)) (hv : v * (img.Dy : K) = (m : K))
    (hn : -(2 ^ 62) ≤ n ∧ n ≤ 2 ^ 62) (hm : -(2 ^ 62) ≤ m ∧ m ≤ 2 ^ 62)
    (cr cg cb : Nat) (hr : cr ≤ 255) (hg : cg ≤ 255) (hb : cb ≤ 255)
    (hA : img.At (coordA img u v).1 (coordA img u v).2 = (⟨cr, cg, cb, 255⟩ : RGBA).RGBA) :
    (diff img u = 0 ∧ diff img v = 0) ∧
    textureLookup img u v =
      ⟨min 255 ((cr : K) * 257 / 255), min 255 ((cg : K) * 257 / 255),
        min 255 ((cb : K) * 257 / 255)⟩ ∧
    (textureLookup img u v).toColor =
      ⟨if cr ≤ 127 ∨ cr = 255 then cr else cr + 1,
       if cg ≤ 127 ∨ cg = 255 then cg else cg + 1,
       if cb ≤ 127 ∨ cb = 255 then cb else cb + 1, 255⟩ := by
  have hx := (diff_eq_zero_of_int img u n hu (by omega) (by omega)).2
  have hy := (diff_eq_zero_of_int img v m hv (by omega) (by omega)).2
  have hR := toUint8_scaled (K := K) cr hr
  have hG := toUint8_scaled (K := K) cg hg
  have hB := toUint8_scaled (K := K) cb hb
  have ht : textureLookup img u v =
      ⟨min 255 ((cr : K) * 257 / 255), min 255 ((cg : K) * 257 / 255),
        min 255 ((cb : K) * 257 / 255)⟩ := by
    rw [textureLookup_of_diff_zero img u v hx hy, hA]
    simp only [colorToVec3, RGBA.RGBA]
    rw [hR.1, hG.1, hB.1]
  refine ⟨⟨hx, hy⟩, ht, ?_⟩
  rw [ht]
  simp only [vec3.toColor]
  rw [hR.2, hG.2, hB.2]

/-- Witness for `C13_channel_scale`: the uniform `4 × 2` grid of colour `(128, 64, 255)`
sampled at `u = 1/2`, `v = 0`. -/
theorem C13_channel_scale_witness :
    (1 / 2 : ℚ) * ((uniformGrid 4 2 ⟨128, 64, 255, 255⟩).Dy : ℚ) = ((1 : Int) : ℚ) ∧
    (0 : ℚ) * ((uniformGrid 4 2 ⟨128, 64, 255, 255⟩).Dy : ℚ) = ((0 : Int) : ℚ) ∧
    (-(2 ^ 62) ≤ (1 : Int) ∧ (1 : Int) ≤ 2 ^ 62) ∧ (-(2 ^ 62) ≤ (0 : Int) ∧ (0 : Int) ≤ 2 ^ 62) ∧
    (textureLookup (uniformGrid 4 2 ⟨128, 64, 255, 255⟩) (1 / 2 : ℚ) 0).toColor =
      ⟨129, 64, 255, 255⟩ := by
  have hDy : ((uniformGrid 4 2 ⟨128, 64, 255, 255⟩).Dy : ℚ) = 2 := by simp [uniformGrid]
  have hu : (1 / 2 : ℚ) * ((uniformGrid 4 2 ⟨128, 64, 255, 255⟩).Dy : ℚ) = ((1 : Int) : ℚ) := by
    rw [hDy]; norm_num
  have hv : (0 : ℚ) * ((uniformGrid 4 2 ⟨128, 64, 255, 255⟩).Dy : ℚ) = ((0 : Int) : ℚ) := by
    simp
  have hbu : base (uniformGrid 4 2 ⟨128, 64, 255, 255⟩) (1 / 2 : ℚ) = 1 :=
    (diff_eq_zero_of_int _ _ 1 hu (by norm_num) (by norm_num)).1
  have hbv : base (uniformGrid 4 2 ⟨128, 64, 255, 255⟩) (0 : ℚ) = 0 :=
    (diff_eq_zero_of_int _ _ 0 hv (by norm_num) (by norm_num)).1
  have hA : (uniformGrid 4 2 ⟨128, 64, 255, 255⟩).At
      (coordA (uniformGrid 4 2 ⟨128, 64, 255, 255⟩) (1 / 2 : ℚ) 0).1
      (coordA (uniformGrid 4 2 ⟨128, 64, 255, 255⟩) (1 / 2 : ℚ) 0).2
      = (⟨128, 64, 255, 255⟩ : RGBA).RGBA := by
    simp only [coordA, hbu, hbv, clampY_eq]
    decide
  exact ⟨hu, hv, by norm_num, by norm_num,
    (C13_channel_scale (uniformGrid 4 2 ⟨128, 64, 255, 255⟩) (by decide)
      (by decide) (1 / 2 : ℚ) 0 1 0 hu hv (by norm_num) (by norm_num) 128 64 255 (by decide)
      (by decide) (by decide) hA).2.2⟩

/-! ## C11, C17: the grids handed to the writer -/

theorem Drawable_ext (d e : Drawable) (h1 : d.minX = e.minX) (h2 : d.minY = e.minY)
    (h3 : d.maxX = e.maxX) (h4 : d.maxY = e.maxY) (hp : ∀ a b, d.pix a b = e.pix a b) :
    d = e := by
  cases d
  cases e
  simp only at h1 h2 h3 h4 hp
  subst h1 h2 h3 h4
  have : ∀ f g : Int → Int → RGBA, (∀ a b, f a b = g a b) → f = g :=
    fun f g h => funext fun a => funext fun b => h a b
  rw [this _ _ hp]

theorem Set_bounds (d : Drawable) (x y : Int) (c : RGBA) :
    (d.Set x y c).minX = d.minX ∧ (d.Set x y c).minY = d.minY ∧
    (d.Set x y c).maxX = d.maxX ∧ (d.Set x y c).maxY = d.maxY := by
  unfold Drawable.Set
  split <;> exact ⟨rfl, rfl, rfl, rfl⟩

theorem Set_pix (d : Drawable) (x y : Int) (c : RGBA)
    (hin : d.minX ≤ x ∧ x < d.maxX ∧ d.minY ≤ y ∧ y < d.maxY) (a b : Int) :
    (d.Set x y c).pix a b = if a = x ∧ b = y then c else d.pix a b := by
  unfold Drawable.Set
  rw [if_pos hin]

/-- The inner pixel loop for column `x`, run for the first `m` rows of a grid with the
rectangle `(0,0)-(size,size)`: those `m` cells of the column hold the colours `g x y`,
every other cell is untouched. -/
theorem renderColumn_spec (g : Int → Int → RGBA) (size x : Int) (hx : 0 ≤ x ∧ x < size) :
    ∀ (m : Nat), (m : Int) ≤ size → ∀ d : Drawable,
      d.minX = 0 → d.minY = 0 → d.maxX = size → d.maxY = size →
      ((List.range m).foldl (fun dy (y : Nat) => dy.Set x (y : Int) (g x (y : Int))) d).minX = 0 ∧
      ((List.range m).foldl (fun dy (y : Nat) => dy.Set x (y : Int) (g x (y : Int))) d).minY = 0 ∧
      ((List.range m).foldl (fun dy (y : Nat) => dy.Set x (y : Int) (g x (y : Int))) d).maxX
        = size ∧
      ((List.range m).foldl (fun dy (y : Nat) => dy.Set x (y : Int) (g x (y : Int))) d).maxY
        = size ∧
      ∀ a b, ((List.range m).foldl
          (fun dy (y : Nat) => dy.Set x (y : Int) (g x (y : Int))) d).pix a b
        = if a = x ∧ 0 ≤ b ∧ b < (m : Int) then g x b else d.pix a b := by
  intro m
  induction m with
  | zero =>
    intro _ d h1 h2 h3 h4
    refine ⟨h1, h2, h3, h4, fun a b => ?_⟩
    rw [if_neg (by simp only [Nat.cast_zero]; omega)]
    rfl
  | succ m ih =>
    intro hm d h1 h2 h3 h4
    have hm' : (m : Int) ≤ size := by push_cast at hm; omega
    obtain ⟨r1, r2, r3, r4, rp⟩ := ih hm' d h1 h2 h3 h4
    rw [List.range_succ, List.foldl_append]
    simp only [List.foldl_cons, List.foldl_nil]
    have hb := Set_bounds ((List.range m).foldl
      (fun dy (y : Nat) => dy.Set x (y : Int) (g x (y : Int))) d) x (m : Int) (g x (m : Int))
    refine ⟨hb.1.trans r1, hb.2.1.trans r2, hb.2.2.1.trans r3, hb.2.2.2.trans r4, fun a b => ?_⟩
    rw [Set_pix _ _ _ _ (by rw [r1, r2, r3, r4]; push_cast at hm; omega), rp]
    by_cases hab : a = x ∧ b = (m : Int)
    · rw [if_pos hab, if_pos (by push_cast; omega), hab.2]
    · rw [if_neg hab]
      by_cases h : a = x ∧ 0 ≤ b ∧ b < (m : Int)
      · rw [if_pos h, if_pos (by push_cast; omega)]
      · rw [if_neg h, if_neg (by push_cast; omega)]

/-- The outer pixel loop run for the first `m` columns of a grid with the rectangle
`(0,0)-(size,size)`: every cell of those columns holds `g x y`, the rest is untouched. -/
theorem renderColumns_spec (g : Int → Int → RGBA) (size : Int) (hs : 0 ≤ size) :
    ∀ (m : Nat), (m : Int) ≤ size → ∀ d : Drawable,
      d.minX = 0 → d.minY = 0 → d.maxX = size → d.maxY = size →
      ((List.range m).foldl (fun dx (x : Nat) => (List.range size.toNat).foldl
        (fun dy (y : Nat) => dy.Set (x : Int) (y : Int) (g (x : Int) (y : Int))) dx) d).minX = 0 ∧
      ((List.range m).foldl (fun dx (x : Nat) => (List.range size.toNat).foldl
        (fun dy (y : Nat) => dy.Set (x : Int) (y : Int) (g (x : Int) (y : Int))) dx) d).minY = 0 ∧
      ((List.range m).foldl (fun dx (x : Nat) => (List.range size.toNat).foldl
        (fun dy (y : Nat) => dy.Set (x : Int) (y : Int) (g (x : Int) (y : Int))) dx) d).maxX
        = size ∧
      ((List.range m).foldl (fun dx (x : Nat) => (List.range size.toNat).foldl
        (fun dy (y : Nat) => dy.Set (x : Int) (y : Int) (g (x : Int) (y : Int))) dx) d).maxY
        = size ∧
      ∀ a b, ((List.range m).foldl (fun dx (x : Nat) => (List.range size.toNat).foldl
          (fun dy (y : Nat) => dy.Set (x : Int) (y : Int) (g (x : Int) (y : Int))) dx) d).pix a b
        = if 0 ≤ a ∧ a < (m : Int) ∧ 0 ≤ b ∧ b < size then g a b else d.pix a b := by
  have hn : ((size.toNat : Nat) : Int) = size := Int.toNat_of_nonneg hs
  intro m
  induction m with
  | zero =>
    intro _ d h1 h2 h3 h4
    refine ⟨h1, h2, h3, h4, fun a b => ?_⟩
    rw [if_neg (by simp only [Nat.cast_zero]; omega)]
    rfl
  | succ m ih =>
    intro hm d h1 h2 h3 h4
    have hm' : (m : Int) ≤ size := by push_cast at hm; omega
    obtain ⟨r1, r2, r3, r4, rp⟩ := ih hm' d h1 h2 h3 h4
    rw [List.range_succ, List.foldl_append]
    simp only [List.foldl_cons, List.foldl_nil]
    obtain ⟨c1, c2, c3, c4, cp⟩ := renderColumn_spec g size (m : Int)
      ⟨by omega, by push_cast at hm; omega⟩ size.toNat (le_of_eq hn) _ r1 r2 r3 r4
    refine ⟨c1, c2, c3, c4, fun a b => ?_⟩
    rw [cp, rp, hn]
    by_cases hab : a = (m : Int) ∧ 0 ≤ b ∧ b < size
    · rw [if_pos hab, if_pos (by push_cast; omega), hab.1]
    · rw [if_neg hab]
      by_cases h : 0 ≤ a ∧ a < (m : Int) ∧ 0 ≤ b ∧ b < size
      · rw [if_pos h, if_pos (by push_cast; omega)]
      · rw [if_neg h, if_neg (by push_cast; omega)]

/-- A list of naturals used as a list of integers is the list of the casts. -/
theorem coe_list_eq_map (l : List Nat) :
    (do let a ← l; pure (a : Int) : List Int) = List.map (fun (a : Nat) => (a : Int)) l := by
  induction l with
  | nil => rfl
  | cons a l ih =>
    show (a : Int) :: (do let a ← l; pure (a : Int) : List Int) = _
    rw [ih]
    rfl

/-- Rendering a face into a grid with the rectangle `(0,0)-(size,size)` keeps the rectangle,
overwrites every cell inside it with `pixelColor`, and leaves the cells outside as they
were. -/
theorem renderFace_spec (img : Image) (faceIdx size : Int) (hs : 0 ≤ size) (d : Drawable)
    (h1 : d.minX = 0) (h2 : d.minY = 0) (h3 : d.maxX = size) (h4 : d.maxY = size) :
    (renderFace img faceIdx size d).minX = 0 ∧ (renderFace img faceIdx size d).minY = 0 ∧
    (renderFace img faceIdx size d).maxX = size ∧ (renderFace img faceIdx size d).maxY = size ∧
    ∀ a b, (renderFace img faceIdx size d).pix a b
      = if 0 ≤ a ∧ a < size ∧ 0 ≤ b ∧ b < size then pixelColor img a b faceIdx size
        else d.pix a b := by
  have hn : ((size.toNat : Nat) : Int) = size := Int.toNat_of_nonneg hs
  have h := renderColumns_spec (fun a b => pixelColor img a b faceIdx size) size hs
    size.toNat (le_of_eq hn) d h1 h2 h3 h4
  rw [hn] at h
  have e := coe_list_eq_map (List.range size.toNat)
  unfold renderFace
  rw [e]
  simp only [List.foldl_map]
  exact h

theorem NewRGBA_bounds (size : Int) (hs : 0 ≤ size) :
    (NewRGBA 0 0 size size).minX = 0 ∧ (NewRGBA 0 0 size size).minY = 0 ∧
    (NewRGBA 0 0 size size).maxX = size ∧ (NewRGBA 0 0 size size).maxY = size ∧
    ∀ a b, (NewRGBA 0 0 size size).pix a b = ⟨0, 0, 0, 0⟩ := by
  exact ⟨min_eq_left hs, min_eq_left hs, max_eq_right hs, max_eq_right hs, fun _ _ => rfl⟩

/-- Rendering a face into a grid whose cells outside the rectangle are zero gives the same
grid as rendering the face into a freshly allocated one. -/
theorem renderFace_eq_fresh (img : Image) (faceIdx size : Int) (hs : 0 ≤ size) (d : Drawable)
    (h1 : d.minX = 0) (h2 : d.minY = 0) (h3 : d.maxX = size) (h4 : d.maxY = size)
    (hout : ∀ a b, ¬ (0 ≤ a ∧ a < size ∧ 0 ≤ b ∧ b < size) → d.pix a b = ⟨0, 0, 0, 0⟩) :
    renderFace img faceIdx size d = renderFace img faceIdx size (NewRGBA 0 0 size size) := by
  obtain ⟨n1, n2, n3, n4, np⟩ := NewRGBA_bounds size hs
  obtain ⟨r1, r2, r3, r4, rp⟩ := renderFace_spec img faceIdx size hs d h1 h2 h3 h4
  obtain ⟨f1, f2, f3, f4, fp⟩ :=
    renderFace_spec img faceIdx size hs (NewRGBA 0 0 size size) n1 n2 n3 n4
  apply Drawable_ext _ _ (r1.trans f1.symm) (r2.trans f2.symm) (r3.trans f3.symm)
    (r4.trans f4.symm)
  intro a b
  rw [rp, fp]
  by_cases h : 0 ≤ a ∧ a < size ∧ 0 ≤ b ∧ b < size
  · rw [if_pos h, if_pos h]
  · rw [if_neg h, if_neg h, hout a b h, np]

/-- The grid handed to the writer for face `start + j` is the one obtained by rendering
that face alone into a fresh grid, whatever the faces rendered before it. -/
theorem drawableSeq_eq_fresh (img : Image) (size : Int) (hs : 0 ≤ size) :
    ∀ (j start : Nat) (d : Drawable),
      d.minX = 0 → d.minY = 0 → d.maxX = size → d.maxY = size →
      (∀ a b, ¬ (0 ≤ a ∧ a < size ∧ 0 ≤ b ∧ b < size) → d.pix a b = ⟨0, 0, 0, 0⟩) →
      drawableSeq img size d start j
        = renderFace img ((start + j : Nat) : Int) size (NewRGBA 0 0 size size) := by
  intro j
  induction j with
  | zero =>
    intro start d h1 h2 h3 h4 hout
    simp only [drawableSeq, Nat.add_zero]
    exact renderFace_eq_fresh img start size hs d h1 h2 h3 h4 hout
  | succ j ih =>
    intro start d h1 h2 h3 h4 hout
    obtain ⟨r1, r2, r3, r4, rp⟩ := renderFace_spec img start size hs d h1 h2 h3 h4
    simp only [drawableSeq]
    rw [ih (start + 1) (renderFace img start size d) r1 r2 r3 r4
      (fun a b h => by rw [rp, if_neg h]; exact hout a b h)]
    congr 2
    omega

/-- The face loop entered at face `start` with `n` faces left, when every write succeeds:
the writer is invoked once per face, in order, with the grids `drawableSeq`. -/
theorem faceLoop_saves_of_ok (w : World) (img : Image) (size : Int) (folder : String) :
    ∀ (n start : Nat) (d : Drawable),
      (∀ j, j < n →
        w.saveImage (drawableSeq img size d start j) folder (faceName (start + j)) = none) →
      savedNames (faceLoop w img size folder n start d) =
        (List.range n).map (fun j => faceName (start + j)) ∧
      savedImages (faceLoop w img size folder n start d) =
        (List.range n).map (fun j => drawableSeq img size d start j) := by
  intro n
  induction n with
  | zero =>
    intro start d _
    exact ⟨rfl, rfl⟩
  | succ n ih =>
    intro start d hok
    have h0 := hok 0 (Nat.succ_pos n)
    simp only [drawableSeq, Nat.add_zero] at h0
    have hrec := ih (start + 1) (renderFace img start size d)
      (fun j hj => by
        have := hok (j + 1) (by omega)
        simpa only [drawableSeq, Nat.add_assoc, Nat.add_comm 1 j] using this)
    simp only [faceLoop, h0, savedNames, savedImages, hrec.1, hrec.2]
    rw [List.range_succ_eq_map n, List.map_cons, List.map_map, List.map_cons, List.map_map]
    simp only [Nat.add_zero, drawableSeq, List.cons.injEq, true_and]
    constructor
    · apply List.map_congr_left
      intro j _
      simp only [Function.comp, Nat.succ_eq_add_one]
      congr 1
      omega
    · apply List.map_congr_left
      intro j _
      simp only [Function.comp, Nat.succ_eq_add_one, drawableSeq]

/-- The face loop entered at face `start`: when the writes of the next `k` faces succeed,
the `k`-th writer invocation receives the grid `drawableSeq … k`, whether or not that
write succeeds. -/
theorem faceLoop_savedImages_get (w : World) (img : Image) (size : Int) (folder : String) :
    ∀ (k n start : Nat) (d : Drawable), k < n →
      (∀ j, j < k →
        w.saveImage (drawableSeq img size d start j) folder (faceName (start + j)) = none) →
      (savedImages (faceLoop w img size folder n start d))[k]? =
        some (drawableSeq img size d start k) := by
  intro k
  induction k with
  | zero =>
    intro n start d hn _
    obtain ⟨m, rfl⟩ : ∃ m, n = m + 1 := ⟨n - 1, by omega⟩
    simp only [faceLoop, savedImages, drawableSeq]
    exact List.getElem?_cons_zero
  | succ k ih =>
    intro n start d hn hok
    obtain ⟨m, rfl⟩ : ∃ m, n = m + 1 := ⟨n - 1, by omega⟩
    have h0 := hok 0 (Nat.succ_pos k)
    simp only [drawableSeq, Nat.add_zero] at h0
    have hrec := ih m (start + 1) (renderFace img start size d) (by omega)
      (fun j hj => by
        have := hok (j + 1) (by omega)
        simpa only [drawableSeq, Nat.add_assoc, Nat.add_comm 1 j] using this)
    simp only [faceLoop, h0, savedImages, drawableSeq]
    rw [List.getElem?_cons_succ]
    exact hrec

/-- C17: `main` renders all six faces into the one grid allocated before the face loop,
yet for every `size > 0`, every source grid (`W, H ≥ 1`) and every face `k` in `0..5`
(reached when the writes of the faces before it succeed), the grid handed to the writer
for face `k` equals the grid obtained by rendering face `k` alone into a freshly allocated
`size × size` grid; every cell inside the grid holds `pixelColor img x y k size`, which
depends only on `(x, y, k, size)` and the source grid. -/
theorem C17_buffer_reuse_unobservable (w : World) (prog sizeArg inputImage folder : String)
    (rest : List String) (img : Image) (hW : 1 ≤ img.Dx) (hH : 1 ≤ img.Dy) (size : Int)
    (k : Nat) (hload : w.loadImage inputImage = .ok img) (hsize : Atoi sizeArg = .ok size)
    (hpos : 0 < size) (hk : k ≤ 5)
    (hok : ∀ j, j < k →
      w.saveImage (drawableSeq img size (NewRGBA 0 0 size size) 0 j) folder (faceName j) = none) :
    (savedImages (main w (prog :: sizeArg :: inputImage :: folder :: rest)))[k]? =
      some (renderFace img k size (NewRGBA 0 0 size size)) ∧
    ∀ x y : Int, 0 ≤ x → x < size → 0 ≤ y → y < size →
      (renderFace img k size (NewRGBA 0 0 size size)).pix x y = pixelColor img x y k size := by
  obtain ⟨n1, n2, n3, n4, np⟩ := NewRGBA_bounds size hpos.le
  have hget := faceLoop_savedImages_get w img size folder k 6 0 (NewRGBA 0 0 size size)
    (by omega) (by simpa using hok)
  have hfresh := drawableSeq_eq_fresh img size hpos.le k 0 (NewRGBA 0 0 size size)
    n1 n2 n3 n4 (fun a b _ => np a b)
  rw [Nat.zero_add] at hfresh
  constructor
  · simp only [main, hload, hsize]
    rw [hget, hfresh]
  · intro x y hx0 hx1 hy0 hy1
    rw [(renderFace_spec img k size hpos.le _ n1 n2 n3 n4).2.2.2.2 x y,
      if_pos ⟨hx0, hx1, hy0, hy1⟩]

/-- Witness for `C17_buffer_reuse_unobservable`: face `3` of a run at size `2` in
`okWorld`. -/
theorem C17_buffer_reuse_unobservable_witness :
    okWorld.loadImage "in.png" = .ok seamGrid ∧ Atoi "2" = .ok 2 ∧ (0 : Int) < 2 ∧ 3 ≤ 5 ∧
    (savedImages (main okWorld ["e2c", "2", "in.png", "out"]))[3]? =
      some (renderFace seamGrid 3 2 (NewRGBA 0 0 2 2)) :=
  ⟨rfl, rfl, by decide, by decide,
    (C17_buffer_reuse_unobservable okWorld "e2c" "2" "in.png" "out" [] seamGrid (by decide)
      (by decide) 2 3 rfl rfl (by decide) (by decide) (fun _ _ => rfl)).1⟩

/-- C11: for every positive `output_size` and every decoded source grid (`W, H ≥ 1`),
when every write succeeds `main` hands the writer exactly six grids, under the names
`face0.png`, …, `face5.png` in that order; each grid is square with side `output_size` and
has alpha `255` in every pixel. -/
theorem C11_successful_run (w : World) (prog sizeArg inputImage folder : String)
    (rest : List String) (img : Image) (hW : 1 ≤ img.Dx) (hH : 1 ≤ img.Dy) (size : Int)
    (hload : w.loadImage inputImage = .ok img) (hsize : Atoi sizeArg = .ok size)
    (hpos : 0 < size)
    (hok : ∀ j, j < 6 →
      w.saveImage (drawableSeq img size (NewRGBA 0 0 size size) 0 j) folder (faceName j) = none) :
    savedNames (main w (prog :: sizeArg :: inputImage :: folder :: rest)) =
      ["face0.png", "face1.png", "face2.png", "face3.png", "face4.png", "face5.png"] ∧
    (savedImages (main w (prog :: sizeArg :: inputImage :: folder :: rest))).length = 6 ∧
    ∀ d ∈ savedImages (main w (prog :: sizeArg :: inputImage :: folder :: rest)),
      d.minX = 0 ∧ d.minY = 0 ∧ d.maxX = size ∧ d.maxY = size ∧
      ∀ x y : Int, 0 ≤ x → x < size → 0 ≤ y → y < size → (d.pix x y).A = 255 := by
  obtain ⟨n1, n2, n3, n4, np⟩ := NewRGBA_bounds size hpos.le
  have h := faceLoop_saves_of_ok w img size folder 6 0 (NewRGBA 0 0 size size)
    (by simpa using hok)
  simp only [main, hload, hsize]
  rw [h.1, h.2]
  refine ⟨rfl, by simp, ?_⟩
  intro d hd
  obtain ⟨j, _, rfl⟩ := List.mem_map.mp hd
  rw [drawableSeq_eq_fresh img size hpos.le j 0 (NewRGBA 0 0 size size)
    n1 n2 n3 n4 (fun a b _ => np a b)]
  obtain ⟨r1, r2, r3, r4, rp⟩ :=
    renderFace_spec img ((0 + j : Nat) : Int) size hpos.le _ n1 n2 n3 n4
  refine ⟨r1, r2, r3, r4, fun x y hx0 hx1 hy0 hy1 => ?_⟩
  rw [rp, if_pos ⟨hx0, hx1, hy0, hy1⟩]
  rfl

/-- Witness for `C11_successful_run`: a run at size `2` in `okWorld`. -/
theorem C11_successful_run_witness :
    okWorld.loadImage "in.png" = .ok seamGrid ∧ Atoi "2" = .ok 2 ∧ (0 : Int) < 2 ∧
    savedNames (main okWorld ["e2c", "2", "in.png", "out"]) =
      ["face0.png", "face1.png", "face2.png", "face3.png", "face4.png", "face5.png"] :=
  ⟨rfl, rfl, by decide,
    (C11_successful_run okWorld "e2c" "2" "in.png" "out" [] seamGrid (by decide) (by decide)
      2 rfl rfl (by decide) (fun _ _ => rfl)).1⟩

end E2C
